import Mathlib

/-!
Verification development for the Wardley-map heuristic scoring and
graph-analysis core of the sindri repository.

The embedding covers two Python modules:
* `heuristics_engine.py` (class `HeuristicsEngine`): pattern table, fuzzy
  string matching, component scoring;
* `strategic_analyzer.py` (class `StrategicAnalyzer`): the strategic
  analysis passes over a component/dependency graph.

Modelling conventions:
* Python floats are modelled as rationals (`ℚ`); every numeric literal in
  the two modules is a short decimal, and the code only compares and copies
  these values, so rational arithmetic is faithful.
* Python dicts are modelled as association lists in insertion order;
  `dict.get(k, d)` is `lookup` with a default, and `d[k] = v` is an
  in-place replace-or-append update (`dictSet` below).
* Python's `set(deps)` is used by the source only to count distinct
  elements and to extract the element of a singleton set, so it is
  modelled by `List.eraseDups`, whose enumeration order is irrelevant at
  the one place (`len(providers) == 1`) where an element is read.
* A Python function that can raise is modelled in `Except String`;
  the one raising path in this code is the read of the local variable
  `deps` before assignment in `_identify_vulnerabilities`
  (an `UnboundLocalError`).
* Context mappings are `List (String × Bool)`: the engine only ever tests
  truthiness of `context.get(key, False)`, so values are modelled as
  booleans.
-/

namespace Sindri

/-! ## heuristics_engine.py -/

/-- Evolution stages (`EvolutionStage` enum). -/
inductive EvolutionStage where
  | genesis
  | custom
  | product
  | commodity
deriving DecidableEq, Repr

/-- `HeuristicRule` dataclass: condition string, target stage, confidence,
domain, priority (all source rules leave priority at its default 1). -/
structure HeuristicRule where
  condition : String
  stage : EvolutionStage
  confidence : ℚ
  domain : String
  priority : Int
deriving DecidableEq, Repr

/-- `ComponentPattern` dataclass.  The `characteristics` dict of the source
is advisory free text never read by the scorer and is omitted. -/
structure ComponentPattern where
  name : String
  category : String
  default_stage : EvolutionStage
  default_visibility : ℚ
  examples : List String
deriving DecidableEq, Repr

/-- Decimal constant `pct n = n / 100`, written with `Rat.divInt` so that
every score in the embedding is a kernel-computable rational (all numeric
literals of the two source modules are hundredths). -/
def pct (n : ℤ) : ℚ := Rat.divInt n 100

/-- Python `str.strip()` on a list of characters (drop whitespace at both
ends). -/
def stripChars (s : List Char) : List Char :=
  ((s.dropWhile Char.isWhitespace).reverse.dropWhile Char.isWhitespace).reverse

/-- `text.lower().strip()` as performed by `_fuzzy_match`. -/
def normalize (s : String) : List Char :=
  stripChars (s.toList.map Char.toLower)

/-- Python substring containment `sub in l` (contiguous occurrence; the
empty string is contained in everything). -/
def containsSub (sub l : List Char) : Bool :=
  l.tails.any (fun t => sub.isPrefixOf t)

/-- One row update of the classic Levenshtein dynamic program, mirroring
the inner loop of `_levenshtein_similarity`: `prevRow` is `previous_row`,
`i` the index of `c1` in `s1`, and the result is `current_row`. -/
def levNewRow (c1 : Char) (s2 : List Char) (prevRow : List Nat) (i : Nat) : List Nat :=
  let z := s2.zip (prevRow.zip (prevRow.drop 1))
  let r := z.foldl
    (fun (acc : List Nat × Nat) t =>
      let ins := t.2.2 + 1
      let del := acc.2 + 1
      let sub := t.2.1 + (if c1 = t.1 then 0 else 1)
      let v := min ins (min del sub)
      (v :: acc.1, v))
    ([], i + 1)
  (i + 1) :: r.1.reverse

/-- Levenshtein distance between `s1` and `s2` (rows as in the source;
callers guarantee `s2.length ≤ s1.length` like the Python wrapper). -/
def levDistance (s1 s2 : List Char) : Nat :=
  let initRow := List.range (s2.length + 1)
  let fin := s1.foldl (fun (st : Nat × List Nat) c1 =>
    (st.1 + 1, levNewRow c1 s2 st.2 st.1)) (0, initRow)
  fin.2.getLastD 0

/-- `_levenshtein_similarity`: swaps so the first string is the longer one,
returns 0.0 when the shorter string is empty, otherwise
`1 - distance / max(len(s1), len(s2))`. -/
def levSimilarity (s1 s2 : List Char) : ℚ :=
  let p := if s1.length < s2.length then (s2, s1) else (s1, s2)
  if p.2.length = 0 then 0
  else 1 - Rat.divInt (levDistance p.1 p.2) (Int.ofNat (Nat.max p.1.length p.2.length))

/-- `_fuzzy_match(text1, text2, threshold)`: equality after lowering and
stripping, then containment either way, then strictly-above-threshold
Levenshtein similarity. -/
def fuzzyMatch (t1 t2 : String) (threshold : ℚ) : Bool :=
  let a := normalize t1
  let b := normalize t2
  if a = b then true
  else if containsSub a b || containsSub b a then true
  else if threshold < levSimilarity a b then true
  else false

/-- The pattern dictionary built by `_initialize_patterns`, in insertion
order, keyed as in the source. -/
def patternsList : List (String × ComponentPattern) :=
  [("PostgreSQL", ⟨"PostgreSQL", "Database", .commodity, pct 15,
      ["Relational DB", "RDBMS", "SQL Database"]⟩),
   ("MySQL", ⟨"MySQL", "Database", .commodity, pct 15,
      ["MySQL", "MariaDB"]⟩),
   ("MongoDB", ⟨"MongoDB", "Database", .product, pct 15,
      ["NoSQL DB", "Document Database"]⟩),
   ("React", ⟨"React", "Frontend Framework", .product, pct 80,
      ["React.js", "ReactJS", "React Frontend"]⟩),
   ("Vue", ⟨"Vue", "Frontend Framework", .product, pct 80,
      ["Vue.js", "VueJS"]⟩),
   ("AWS", ⟨"AWS", "Cloud Infrastructure", .commodity, pct 10,
      ["Amazon Web Services", "EC2", "S3"]⟩),
   ("Kubernetes", ⟨"Kubernetes", "Container Orchestration", .commodity, pct 5,
      ["K8s", "K8S", "Kubernetes"]⟩),
   ("TensorFlow", ⟨"TensorFlow", "ML Framework", .product, pct 30,
      ["TensorFlow", "TF"]⟩),
   ("PyTorch", ⟨"PyTorch", "ML Framework", .product, pct 30,
      ["PyTorch", "Torch"]⟩),
   ("ML Model", ⟨"Custom ML Model", "ML Model", .custom, pct 40,
      ["Machine Learning", "Custom Model", "Proprietary Algorithm"]⟩),
   ("REST API", ⟨"REST API", "API", .commodity, pct 50,
      ["API", "REST", "HTTP API"]⟩),
   ("OAuth2", ⟨"OAuth2", "Authentication", .commodity, pct 20,
      ["OAuth", "OAuth2", "OpenID"]⟩)]

/-- The rule list built by the four `_initialize_*_heuristics` methods, in
order; every rule uses the default priority 1. -/
def rulesList : List HeuristicRule :=
  [⟨"is_customer_interface and is_web", .product, pct 85, "technical", 1⟩,
   ⟨"handles_core_business_logic", .product, pct 80, "technical", 1⟩,
   ⟨"is_proprietary and high_business_value", .custom, pct 90, "technical", 1⟩,
   ⟨"is_infrastructure or is_hosting", .commodity, pct 90, "technical", 1⟩,
   ⟨"is_open_source and widely_used", .commodity, pct 85, "technical", 1⟩,
   ⟨"directly_serves_customer", .product, pct 85, "business", 1⟩,
   ⟨"provides_competitive_advantage", .custom, pct 90, "business", 1⟩,
   ⟨"is_support_function and can_be_outsourced", .commodity, pct 80, "business", 1⟩,
   ⟨"is_new_market_category", .genesis, pct 85, "business", 1⟩,
   ⟨"is_market_leader and dominant_position", .product, pct 85, "competitive", 1⟩,
   ⟨"is_disruptive_innovation", .genesis, pct 90, "competitive", 1⟩,
   ⟨"is_highly_competitive and low_margin", .commodity, pct 90, "competitive", 1⟩,
   ⟨"gross_margin_high", .custom, pct 85, "financial", 1⟩,
   ⟨"gross_margin_medium", .product, pct 80, "financial", 1⟩,
   ⟨"gross_margin_low", .commodity, pct 90, "financial", 1⟩,
   ⟨"rapid_revenue_growth", .custom, pct 70, "financial", 1⟩,
   ⟨"stable_low_revenue_growth", .commodity, pct 80, "financial", 1⟩]

/-- `_stage_to_score`: the four stage scores (the dict's 0.5 default is
unreachable, every enum member is a key). -/
def stageScore (st : EvolutionStage) : ℚ :=
  match st with
  | .genesis => pct 15
  | .custom => pct 40
  | .product => pct 70
  | .commodity => pct 90

/-- Context mappings (`Dict` in the source): key/boolean-signal pairs. -/
def Context : Type := List (String × Bool)

/-- `context.get(key, False)` followed by a truthiness test. -/
def ctxGet (ctx : Context) (k : String) : Bool :=
  ((List.lookup k ctx).getD false)

/-- `condition.lower().replace(' ', '_')` from `_evaluate_rule_condition`. -/
def mungeCondition (c : String) : String :=
  ⟨(c.toList.map Char.toLower).map (fun ch => if ch = ' ' then '_' else ch)⟩

/-- `_evaluate_rule_condition`. -/
def evaluateRuleCondition (condition : String) (ctx : Context) : Bool :=
  ctxGet ctx (mungeCondition condition)

/-- `applicable_rules.sort(key=(priority, confidence), reverse=True)` then
`applicable_rules[0]`: a stable descending sort, so the selected rule is
the first one that is maximal in the lexicographic (priority, confidence)
order. -/
def pickBestRule (rs : List HeuristicRule) : Option HeuristicRule :=
  match rs with
  | [] => none
  | r0 :: rest => some (rest.foldl
      (fun best r =>
        if best.priority < r.priority ∨
            (best.priority = r.priority ∧ best.confidence < r.confidence)
        then r else best) r0)

/-- `_apply_heuristics` (the `name` argument is unused by the source). -/
def applyHeuristics (ctx : Context) : ℚ :=
  match pickBestRule (rulesList.filter (fun r => evaluateRuleCondition r.condition ctx)) with
  | none => pct 50
  | some r => stageScore r.stage

def highVisibilityWords : List String :=
  ["customer", "user", "interface", "portal", "dashboard", "ui", "ux", "frontend"]

def mediumVisibilityWords : List String :=
  ["api", "service", "layer", "gateway", "orchestration"]

def lowVisibilityWords : List String :=
  ["database", "storage", "infrastructure", "hosting", "backend", "core", "engine"]

/-- `_score_visibility_heuristic` (`name_lower = name.lower()` is inlined
at its three use sites). -/
def scoreVisibilityHeuristic (name : String) (ctx : Context) : ℚ :=
  if highVisibilityWords.any (fun w => containsSub w.toList (name.toList.map Char.toLower)) then pct 85
  else if mediumVisibilityWords.any (fun w => containsSub w.toList (name.toList.map Char.toLower)) then pct 50
  else if lowVisibilityWords.any (fun w => containsSub w.toList (name.toList.map Char.toLower)) then pct 20
  else if ctxGet ctx "is_customer_facing" then pct 85
  else if ctxGet ctx "is_internal" then pct 30
  else pct 50

/-- `HeuristicsEngine.score_component`: exact dictionary lookup, then the
fuzzy-pattern loop (canonical key or any example, default threshold 0.8),
then the heuristic-rule evolution score paired with the keyword visibility
score.  The source returns a pair `(evolution, visibility)` and nothing
else. -/
def scoreComponent (name : String) (ctx : Context) : ℚ × ℚ :=
  match List.lookup name patternsList with
  | some p => (stageScore p.default_stage, p.default_visibility)
  | none =>
    match patternsList.find? (fun pr =>
        fuzzyMatch name pr.1 (pct 80) ||
          pr.2.examples.any (fun ex => fuzzyMatch name ex (pct 80))) with
    | some pr => (stageScore pr.2.default_stage, pr.2.default_visibility)
    | none => (applyHeuristics ctx, scoreVisibilityHeuristic name ctx)

/-! ## strategic_analyzer.py -/

/-- A scored component as consumed by `StrategicAnalyzer.analyze`
(dict with keys `name`, `visibility`, `evolution`). -/
structure Component where
  name : String
  visibility : ℚ
  evolution : ℚ
deriving DecidableEq, Repr

/-- `InsightType` enum. -/
inductive InsightType where
  | strength
  | vulnerability
  | opportunity
  | threat
  | bottleneck
  | evolution_readiness
deriving DecidableEq, Repr

/-- `StrategicInsight` dataclass. -/
structure StrategicInsight where
  type : InsightType
  component : String
  title : String
  description : String
  impact : String
  actionable : Bool
  recommendation : Option String
  confidence : ℚ
deriving DecidableEq, Repr

/-- `MapAnalysis` dataclass (the evolution trajectory dict is an
association list in insertion order). -/
structure MapAnalysis where
  total_components : Nat
  total_dependencies : Nat
  insights : List StrategicInsight := []
  vulnerabilities : List String := []
  opportunities : List String := []
  threats : List String := []
  strategic_recommendations : List String := []
  evolution_trajectory : List (String × String) := []
  competitive_advantages : List String := []
  critical_path : List String := []
deriving DecidableEq, Repr

/-- Append `v` to the list stored under `k`, starting a fresh list when the
key is absent: the body of the loop in `_build_dependency_graph`. -/
def dictAppend (g : List (String × List String)) (k v : String) : List (String × List String) :=
  match g with
  | [] => [(k, [v])]
  | (k', vs) :: rest => if k' = k then (k', vs ++ [v]) :: rest else (k', vs) :: dictAppend rest k v

/-- `_build_dependency_graph`: forward adjacency, insertion-ordered. -/
def buildDependencyGraph (deps : List (String × String)) : List (String × List String) :=
  deps.foldl (fun g sd => dictAppend g sd.1 sd.2) []

/-- `_build_reverse_dependency_graph`. -/
def buildReverseDependencyGraph (deps : List (String × String)) : List (String × List String) :=
  deps.foldl (fun g sd => dictAppend g sd.2 sd.1) []

/-- `graph.get(name, [])`. -/
def graphGet (g : List (String × List String)) (k : String) : List String :=
  (List.lookup k g).getD []

/-- Python dict assignment `d[k] = v` on an insertion-ordered dict:
replace in place if the key exists, append otherwise. -/
def dictSet (d : List (String × String)) (k v : String) : List (String × String) :=
  match d with
  | [] => [(k, v)]
  | (k', v') :: rest => if k' = k then (k', v) :: rest else (k', v') :: dictSet rest k v

/-- `_stage_label`. -/
def stageLabel (evolution : ℚ) : String :=
  if evolution < pct 25 then "Genesis"
  else if evolution < pct 55 then "Custom"
  else if evolution < pct 80 then "Product"
  else "Commodity"

/-- `_identify_strengths`: custom-stage differentiators and genesis
innovation leaders; each hit appends an insight and the component name to
`competitive_advantages`. -/
def strengthsStep (a : MapAnalysis) (comp : Component) : MapAnalysis :=
    let a :=
      if pct 25 ≤ comp.evolution ∧ comp.evolution ≤ pct 55 ∧ pct 40 ≤ comp.visibility then
        { a with
          insights := a.insights ++ [⟨.strength, comp.name,
            comp.name ++ ": Core Competitive Advantage",
            "Custom-built component at " ++ stageLabel comp.evolution ++
              " stage. This is a key differentiator that competitors cannot easily replicate.",
            "high", false,
            some ("Protect and continuously improve " ++ comp.name ++
              ". Monitor for commoditization signals."),
            pct 85⟩],
          competitive_advantages := a.competitive_advantages ++ [comp.name] }
      else a
    if comp.evolution < pct 25 ∧ pct 50 ≤ comp.visibility then
      { a with
        insights := a.insights ++ [⟨.strength, comp.name,
          comp.name ++ ": Innovation Leader",
          "Genesis-stage innovation in " ++ comp.name ++
            ". This represents your capability to drive market disruption.",
          "high", false,
          some ("Invest in scaling and productizing " ++ comp.name ++
            " quickly to capitalize on first-mover advantage."),
          pct 90⟩],
        competitive_advantages := a.competitive_advantages ++ [comp.name] }
    else a

/-- `_identify_strengths` is the fold of `strengthsStep` over the
components. -/
def identifyStrengths (components : List Component) (analysis : MapAnalysis) : MapAnalysis :=
  components.foldl strengthsStep analysis

/-- The infrastructure-risk insight of `_identify_vulnerabilities`. -/
def infraVulnInsight (name target : String) : StrategicInsight :=
  ⟨.vulnerability, name,
    name ++ ": Infrastructure Risk",
    name ++ " is a high-value component that depends on " ++ target ++
      ", a commodity component. Commodity components are subject to price compression, " ++
      "feature commoditization, and vendor lock-in risks.",
    "high", true,
    some ("Evaluate alternative providers for " ++ target ++
      " or develop in-house capability to reduce dependency."),
    pct 80⟩

/-- The single-point-of-failure insight of `_identify_vulnerabilities`. -/
def spofInsight (name provider : String) : StrategicInsight :=
  ⟨.vulnerability, name,
    name ++ ": Single Point of Failure",
    name ++ " is a critical custom component with a single dependency: " ++ provider ++
      ". This creates supply chain risk.",
    "medium", true,
    some ("Diversify dependencies for " ++ name ++
      " by introducing redundancy or alternatives."),
    pct 75⟩

/-- The body of the inner loop of `_identify_vulnerabilities`: for one
dependency target of a high-visibility component, look the target up in
the component list and flag an infrastructure risk if it is a commodity. -/
def infraStep (allComponents : List Component) (name : String)
    (acc : MapAnalysis) (depTarget : String) : MapAnalysis :=
  match allComponents.find? (fun c => c.name == depTarget) with
  | some targetComp =>
    if pct 80 ≤ targetComp.evolution then
      { acc with
        insights := acc.insights ++ [infraVulnInsight name depTarget],
        vulnerabilities := acc.vulnerabilities ++ [name ++ " → " ++ depTarget] }
    else acc
  | none => acc

/-- Record a single-point-of-failure vulnerability. -/
def spofAdd (a : MapAnalysis) (name provider : String) : MapAnalysis :=
  { a with
    insights := a.insights ++ [spofInsight name provider],
    vulnerabilities := a.vulnerabilities ++ [name ++ ": Single source - " ++ provider] }

/-- The loop of `_identify_vulnerabilities`.  The Python local `deps` is
assigned only inside the `visibility >= 0.7` branch but read by the
single-point-of-failure check for every custom-stage component, so it is
modelled as an `Option (List String)` cell threaded across the loop:
`none` means not yet assigned (reading it raises `UnboundLocalError`),
`some deps` holds the stale value from the last component that took the
high-visibility branch.  `set(deps)` is modelled with `eraseDups`. -/
def vulnLoop (allComponents : List Component) (depGraph : List (String × List String)) :
    List Component → Option (List String) → MapAnalysis → Except String MapAnalysis
  | [], _, a => .ok a
  | comp :: rest, depsCell, a =>
    if pct 70 ≤ comp.visibility then
      -- `deps` is (re)bound here; the infrastructure check runs over it and
      -- the single-point-of-failure check below reads this fresh value.
      if pct 25 ≤ comp.evolution ∧ comp.evolution ≤ pct 55 then
        if 0 < (graphGet depGraph comp.name).length then
          if (graphGet depGraph comp.name).eraseDups.length = 1 then
            vulnLoop allComponents depGraph rest (some (graphGet depGraph comp.name))
              (spofAdd
                ((graphGet depGraph comp.name).foldl (infraStep allComponents comp.name) a)
                comp.name ((graphGet depGraph comp.name).eraseDups.headD ""))
          else vulnLoop allComponents depGraph rest (some (graphGet depGraph comp.name))
            ((graphGet depGraph comp.name).foldl (infraStep allComponents comp.name) a)
        else vulnLoop allComponents depGraph rest (some (graphGet depGraph comp.name))
          ((graphGet depGraph comp.name).foldl (infraStep allComponents comp.name) a)
      else vulnLoop allComponents depGraph rest (some (graphGet depGraph comp.name))
        ((graphGet depGraph comp.name).foldl (infraStep allComponents comp.name) a)
    else
      -- `deps` was not (re)bound for this component: the single-point-of-
      -- failure check reads the stale cell, raising when it is unassigned.
      if pct 25 ≤ comp.evolution ∧ comp.evolution ≤ pct 55 then
        match depsCell with
        | none => .error "UnboundLocalError: deps"
        | some deps =>
          if 0 < deps.length then
            if deps.eraseDups.length = 1 then
              vulnLoop allComponents depGraph rest depsCell
                (spofAdd a comp.name (deps.eraseDups.headD ""))
            else vulnLoop allComponents depGraph rest depsCell a
          else vulnLoop allComponents depGraph rest depsCell a
      else vulnLoop allComponents depGraph rest depsCell a

/-- `_identify_vulnerabilities`. -/
def identifyVulnerabilities (components : List Component) (dependencies : List (String × String))
    (analysis : MapAnalysis) : Except String MapAnalysis :=
  vulnLoop components (buildDependencyGraph dependencies) components none analysis

/-- `_identify_opportunities`: three independent per-component checks. -/
def opportunitiesStep (a : MapAnalysis) (comp : Component) : MapAnalysis :=
    let a :=
      if pct 40 ≤ comp.evolution ∧ comp.evolution ≤ pct 55 ∧ pct 40 ≤ comp.visibility then
        { a with
          insights := a.insights ++ [⟨.opportunity, comp.name,
            comp.name ++ ": Commoditization Opportunity",
            comp.name ++ " is a mature custom component approaching the product stage. " ++
              "This is an opportunity to package it as a standalone product or service offering.",
            "high", true,
            some ("Evaluate productizing " ++ comp.name ++
              " as a separate offering or licensing it to partners."),
            pct 80⟩],
          opportunities := a.opportunities ++ [comp.name] }
      else a
    let a :=
      if comp.evolution < pct 25 then
        { a with
          insights := a.insights ++ [⟨.opportunity, comp.name,
            comp.name ++ ": Market Disruption Potential",
            comp.name ++ " is a genesis-stage innovation. This represents an untapped " ++
              "market opportunity before competitors enter.",
            "high", true,
            some ("Accelerate development and market entry for " ++ comp.name ++
              " to establish market leadership."),
            pct 85⟩],
          opportunities := a.opportunities ++ [comp.name] }
      else a
    if pct 85 ≤ comp.evolution ∧ pct 70 ≤ comp.visibility then
      { a with
        insights := a.insights ++ [⟨.opportunity, comp.name,
          comp.name ++ ": Expansion Opportunity",
          comp.name ++ " is a mature, customer-facing component. This is an opportunity " ++
            "to expand feature set or enter adjacent markets.",
          "medium", true,
          some ("Identify adjacent use cases and markets for " ++ comp.name ++ " expansion."),
          pct 75⟩],
        opportunities := a.opportunities ++ [comp.name ++ " (expansion)"] }
    else a

/-- `_identify_opportunities` is the fold of `opportunitiesStep`. -/
def identifyOpportunities (components : List Component) (analysis : MapAnalysis) : MapAnalysis :=
  components.foldl opportunitiesStep analysis

/-- `_identify_threats`: two independent per-component checks. -/
def threatsStep (a : MapAnalysis) (comp : Component) : MapAnalysis :=
    let a :=
      if pct 30 ≤ comp.evolution ∧ comp.evolution ≤ pct 45 then
        { a with
          insights := a.insights ++ [⟨.threat, comp.name,
            comp.name ++ ": Commoditization Threat",
            comp.name ++ " is transitioning from custom to product stage. Competitors may be " ++
              "developing similar solutions, threatening your competitive advantage.",
            "high", true,
            some ("Accelerate feature development and market education for " ++ comp.name ++
              " to maintain competitive lead."),
            pct 80⟩],
          threats := a.threats ++ [comp.name] }
      else a
    if pct 55 ≤ comp.evolution ∧ comp.evolution < pct 80 then
      { a with
        insights := a.insights ++ [⟨.threat, comp.name,
          comp.name ++ ": Increasing Competition",
          comp.name ++ " is at product stage with multiple competitors likely entering " ++
            "the market. Margin compression is inevitable.",
          "medium", true,
          some ("Plan cost reduction and feature differentiation for " ++ comp.name ++
            " to compete on value, not just price."),
          pct 75⟩],
        threats := a.threats ++ [comp.name ++ " (competition)"] }
    else a

/-- `_identify_threats` is the fold of `threatsStep`. -/
def identifyThreats (components : List Component) (analysis : MapAnalysis) : MapAnalysis :=
  components.foldl threatsStep analysis

/-- `_identify_bottlenecks` (its `dep_graph` local is built but never
read; only the reverse graph matters). -/
def bottlenecksStep (revGraph : List (String × List String)) (a : MapAnalysis)
    (comp : Component) : MapAnalysis :=
  if 3 ≤ (graphGet revGraph comp.name).length then
    if comp.evolution < pct 70 then
      { a with
        insights := a.insights ++ [⟨.bottleneck, comp.name,
          comp.name ++ ": Critical Bottleneck",
          comp.name ++ " is a critical infrastructure component that " ++
            toString (graphGet revGraph comp.name).length ++
            " other components depend on. Its unstable nature (" ++
            stageLabel comp.evolution ++ ") creates system-wide risk.",
          "high", true,
          some ("Stabilize and harden " ++ comp.name ++
            ". Consider introducing redundancy or failover mechanisms."),
          pct 85⟩] }
    else a
  else a

/-- `_identify_bottlenecks` is the fold of `bottlenecksStep` over the
reverse dependency graph. -/
def identifyBottlenecks (components : List Component) (dependencies : List (String × String))
    (analysis : MapAnalysis) : MapAnalysis :=
  components.foldl (bottlenecksStep (buildReverseDependencyGraph dependencies)) analysis

/-- `_assess_evolution_readiness`: the if/elif chain mapping the current
stage to the next target (Genesis jumps directly to Product in the
source), recording both an insight and a trajectory entry. -/
def readinessStep (a : MapAnalysis) (comp : Component) : MapAnalysis :=
    if pct 80 ≤ comp.evolution then a
    else
      let current := if comp.evolution < pct 25 then "Genesis"
        else if comp.evolution < pct 55 then "Custom" else "Product"
      let target := if comp.evolution < pct 55 then "Product" else "Commodity"
      { a with
        insights := a.insights ++ [⟨.evolution_readiness, comp.name,
          comp.name ++ ": Evolution Path " ++ current ++ " → " ++ target,
          comp.name ++ " is approaching maturity for evolution to " ++ target ++
            ". Preparation should begin now.",
          "medium", true,
          some ("Start preparing " ++ comp.name ++ " for evolution to " ++ target ++
            ": standardize interfaces, increase reliability, reduce cost."),
          pct 80⟩],
        evolution_trajectory :=
          dictSet a.evolution_trajectory comp.name (current ++ " → " ++ target) }

/-- `_assess_evolution_readiness` is the fold of `readinessStep`. -/
def assessEvolutionReadiness (components : List Component) (analysis : MapAnalysis) : MapAnalysis :=
  components.foldl readinessStep analysis

/-- `_dfs_longest_path`, with an explicit recursion-depth fuel.  The
source recursion copies the visited set, adds the current node, stops on
already-visited nodes and keeps the longest extension over all
neighbours; `analyze` supplies fuel exceeding the number of graph keys,
which the termination theorem below shows is never exhausted. -/
def dfsLongestPath : Nat → String → List (String × List String) → List String → List String
  | 0, start, _, _ => [start]
  | fuel + 1, start, graph, visited =>
    if start ∈ visited then [start]
    else
      if (graphGet graph start).isEmpty then [start]
      else (graphGet graph start).foldl (fun longest neighbor =>
        let path := dfsLongestPath fuel neighbor graph (start :: visited)
        if longest.length < path.length + 1 then start :: path else longest) [start]

/-- `longest_paths.sort(key=len, reverse=True)` followed by taking index 0:
a stable descending sort, so the selected path is the first one of maximal
length (no change when no path was collected). -/
def selectLongest (paths : List (List String)) (analysis : MapAnalysis) : MapAnalysis :=
  match paths with
  | [] => analysis
  | p :: rest =>
    { analysis with
      critical_path := rest.foldl (fun best q => if best.length < q.length then q else best) p }

def identifyCriticalPath (components : List Component) (dependencies : List (String × String))
    (analysis : MapAnalysis) : MapAnalysis :=
  selectLongest
    (components.foldl (fun acc comp =>
      if comp.evolution < pct 25 then
        if (dfsLongestPath ((buildDependencyGraph dependencies).length + 1) comp.name
            (buildDependencyGraph dependencies) []).isEmpty then acc
        else acc ++ [dfsLongestPath ((buildDependencyGraph dependencies).length + 1) comp.name
            (buildDependencyGraph dependencies) []]
      else acc) [])
    analysis

/-- `_generate_recommendations`. -/
def generateRecommendations (components : List Component) (_dependencies : List (String × String))
    (analysis : MapAnalysis) : MapAnalysis :=
  let genesisComps := components.filter (fun c => decide (c.evolution < pct 25))
  let recommendations : List String :=
    if genesisComps.isEmpty then [] else
      ["INNOVATION LEADERSHIP: Accelerate development of genesis-stage innovations (" ++
        String.intercalate ", " ((genesisComps.take 3).map Component.name) ++
        ") to establish market leadership before competitors enter."]
  let customComps := components.filter (fun c =>
    decide (pct 25 ≤ c.evolution ∧ c.evolution ≤ pct 55 ∧ pct 40 ≤ c.visibility))
  let recommendations :=
    if customComps.isEmpty then recommendations else
      recommendations ++
      ["COMPETITIVE MOAT: Protect your custom differentiators (" ++
        String.intercalate ", " ((customComps.take 3).map Component.name) ++
        ") from commoditization through continuous innovation and network effects."]
  let commodityDeps := components.foldl (fun acc c =>
    acc ++ (analysis.vulnerabilities.filter (fun d =>
      containsSub c.name.toList d.toList && decide (pct 70 ≤ c.visibility))).map
        (fun d => (c.name, d))) []
  let recommendations :=
    if commodityDeps.isEmpty then recommendations else
      recommendations ++
      ["SUPPLY CHAIN RESILIENCE: Diversify or develop in-house alternatives for critical " ++
        "commodity dependencies to reduce vendor lock-in risk."]
  let productReady := components.filter (fun c =>
    decide (pct 40 ≤ c.evolution ∧ c.evolution ≤ pct 55))
  let recommendations :=
    if productReady.isEmpty then recommendations else
      recommendations ++
      ["NEW REVENUE STREAMS: Evaluate productizing mature custom components (" ++
        String.intercalate ", " ((productReady.take 3).map Component.name) ++
        ") for external monetization."]
  let recommendations :=
    if analysis.evolution_trajectory.isEmpty then recommendations else
      recommendations ++
      ["EVOLUTIONARY PLANNING: Begin preparation for components approaching next evolution " ++
        "stage. Standardize interfaces, increase reliability, optimize cost."]
  { analysis with strategic_recommendations := recommendations }

/-- `StrategicAnalyzer.analyze`: the fixed sequence of passes over the
snapshot.  The result is in `Except String` because the vulnerability pass
can raise `UnboundLocalError` (see `vulnLoop`). -/
def analyze (components : List Component) (dependencies : List (String × String)) :
    Except String MapAnalysis :=
  match identifyVulnerabilities components dependencies
      (identifyStrengths components
        { total_components := components.length,
          total_dependencies := dependencies.length }) with
  | .error e => .error e
  | .ok a2 =>
    .ok (generateRecommendations components dependencies
      (identifyCriticalPath components dependencies
        (assessEvolutionReadiness components
          (identifyBottlenecks components dependencies
            (identifyThreats components
              (identifyOpportunities components a2))))))

/-- Projection used by concrete evaluations: the critical path of a
successful analysis (empty on error). -/
def analysisCriticalPath : Except String MapAnalysis → List String
  | .ok a => a.critical_path
  | .error _ => []

/-- Projection: vulnerability list of a successful analysis. -/
def analysisVulnerabilities : Except String MapAnalysis → List String
  | .ok a => a.vulnerabilities
  | .error _ => []

/-- Whether the analysis raised. -/
def analysisIsError : Except String MapAnalysis → Bool
  | .ok _ => false
  | .error _ => true

/-- The successful result of an analysis (a zero-total dummy on error). -/
def analysisOk : Except String MapAnalysis → MapAnalysis
  | .ok a => a
  | .error _ => { total_components := 0, total_dependencies := 0 }

/-- The trajectory string recorded by `_assess_evolution_readiness` for a
component with the given evolution (callers only use it for evolution
below 0.8). -/
def trajectoryLabel (ev : ℚ) : String :=
  (if ev < pct 25 then "Genesis" else if ev < pct 55 then "Custom" else "Product") ++
    " → " ++ (if ev < pct 55 then "Product" else "Commodity")

/-! ### State-threaded variants for the frame property (C10)

Python passes the `visited` set to `_dfs_longest_path` by reference, and
the source copies it (`visited.copy()`) before mutating.  To make that
observable in the embedding, `dfsLongestPathSt` returns, alongside the
path, the final contents of the set object the CALLER passed in: the copy
is modelled by starting a fresh list `start :: visited` for the recursive
calls (threaded through the sibling iterations, as the same local object
is passed to each child), while the caller-visible set is returned as is,
since no operation of the source ever writes to it. -/

def dfsLongestPathSt :
    Nat → String → List (String × List String) → List String → List String × List String
  | 0, start, _, visited => ([start], visited)
  | fuel + 1, start, graph, visited =>
    if start ∈ visited then ([start], visited)
    else
      if (graphGet graph start).isEmpty then ([start], visited)
      else
        (((graphGet graph start).foldl
          (fun (st : List String × List String) neighbor =>
            let r := dfsLongestPathSt fuel neighbor graph st.2
            (if st.1.length < r.1.length + 1 then start :: r.1 else st.1, r.2))
          ([start], start :: visited)).1, visited)

/-- `_identify_critical_path` with the state-threaded DFS: also returns
the component list and dependency list as observed after the pass (the
source only reads them). -/
def identifyCriticalPathSt (components : List Component)
    (dependencies : List (String × String)) (analysis : MapAnalysis) :
    MapAnalysis × List Component × List (String × String) :=
  (selectLongest
    (components.foldl (fun acc comp =>
      if comp.evolution < pct 25 then
        if (dfsLongestPathSt ((buildDependencyGraph dependencies).length + 1) comp.name
            (buildDependencyGraph dependencies) []).1.isEmpty then acc
        else acc ++ [(dfsLongestPathSt ((buildDependencyGraph dependencies).length + 1) comp.name
            (buildDependencyGraph dependencies) []).1]
      else acc) [])
    analysis, components, dependencies)

/-- `analyze` with the argument lists threaded through as state: every
pass of the source only reads `components`/`dependencies` (they are
folded over, never assigned, appended to, or passed to a mutating
callee), so each stage hands the lists on unchanged; the critical-path
stage uses the state-threaded DFS. -/
def analyzeSt (components : List Component) (dependencies : List (String × String)) :
    Except String MapAnalysis × List Component × List (String × String) :=
  match identifyVulnerabilities components dependencies
      (identifyStrengths components
        { total_components := components.length,
          total_dependencies := dependencies.length }) with
  | .error e => (.error e, components, dependencies)
  | .ok a2 =>
    match identifyCriticalPathSt components dependencies
        (assessEvolutionReadiness components
          (identifyBottlenecks components dependencies
            (identifyThreats components
              (identifyOpportunities components a2)))) with
    | (a7, comps7, deps7) =>
      (.ok (generateRecommendations comps7 deps7 a7), comps7, deps7)

/-! ### Helper lemmas for the scorer -/

lemma stageScore_bounds (st : EvolutionStage) :
    0 ≤ stageScore st ∧ stageScore st ≤ 1 := by
  cases st <;> decide

lemma lookup_mem {α β : Type} [BEq α] [LawfulBEq α] :
    ∀ (l : List (α × β)) (k : α) (v : β), List.lookup k l = some v → (k, v) ∈ l := by
  intro l k v h
  induction l with
  | nil => simp [List.lookup] at h
  | cons hd tl ih =>
    rw [List.lookup] at h
    by_cases hk : k == hd.1
    · simp only [hk] at h
      have : hd = (k, v) := by
        cases hd
        simp at hk h
        simp [hk, h]
      simp [this]
    · simp only [Bool.not_eq_true] at hk
      simp only [hk] at h
      exact List.mem_cons_of_mem _ (ih h)

lemma patterns_vis_bounds :
    ∀ pr ∈ patternsList, 0 ≤ pr.2.default_visibility ∧ pr.2.default_visibility ≤ 1 := by
  intro pr h
  fin_cases h <;> decide

lemma levSimilarity_eval (s1 s2 : List Char) (d m : ℕ)
    (hswap : ¬ s1.length < s2.length) (hne : s2.length ≠ 0)
    (hd : levDistance s1 s2 = d) (hm : Nat.max s1.length s2.length = m) :
    levSimilarity s1 s2 = 1 - Rat.divInt d m := by
  simp only [levSimilarity, if_neg hswap]
  rw [if_neg hne, hd, hm]
  rfl

lemma applyHeuristics_bounds (ctx : Context) :
    0 ≤ applyHeuristics ctx ∧ applyHeuristics ctx ≤ 1 := by
  unfold applyHeuristics
  cases pickBestRule (rulesList.filter fun r => evaluateRuleCondition r.condition ctx) with
  | none => decide
  | some r => exact stageScore_bounds r.stage

lemma scoreVisibilityHeuristic_bounds (name : String) (ctx : Context) :
    0 ≤ scoreVisibilityHeuristic name ctx ∧ scoreVisibilityHeuristic name ctx ≤ 1 := by
  unfold scoreVisibilityHeuristic
  split_ifs <;> decide

/-! ### Claims C4, C5, C7, C8 -/

/-- C4: for every context mapping, `score_component("PostgreSQL", context)`
returns evolution 0.9 (Commodity band) and visibility 0.15.  This is the
code-checkable part of the claim: the source function returns exactly this
pair and computes no confidence value at all, so the claim's clause about
a returned confidence ≥ 0.9 has no counterpart in the code (code bug /
missing feature relative to the specified contract). -/
theorem c4_scoreComponent_postgresql (ctx : Context) :
    scoreComponent "PostgreSQL" ctx = (pct 90, pct 15) := rfl

/-- C5: for every name string (including the empty string and arbitrary
unicode) and every context, both components of `score_component`
lie in [0, 1]. -/
theorem c5_scoreComponent_range (name : String) (ctx : Context) :
    0 ≤ (scoreComponent name ctx).1 ∧ (scoreComponent name ctx).1 ≤ 1 ∧
    0 ≤ (scoreComponent name ctx).2 ∧ (scoreComponent name ctx).2 ≤ 1 := by
  unfold scoreComponent
  cases hl : List.lookup name patternsList with
  | some p =>
    have hv := patterns_vis_bounds (name, p) (lookup_mem _ _ _ hl)
    have hs := stageScore_bounds p.default_stage
    simp only []
    exact ⟨hs.1, hs.2, hv.1, hv.2⟩
  | none =>
    simp only []
    cases hf : patternsList.find? (fun pr =>
        fuzzyMatch name pr.1 (pct 80) ||
          pr.2.examples.any (fun ex => fuzzyMatch name ex (pct 80))) with
    | some pr =>
      have hv := patterns_vis_bounds pr (List.mem_of_find?_eq_some hf)
      have hs := stageScore_bounds pr.2.default_stage
      exact ⟨hs.1, hs.2, hv.1, hv.2⟩
    | none =>
      have ha := applyHeuristics_bounds ctx
      have hb := scoreVisibilityHeuristic_bounds name ctx
      exact ⟨ha.1, ha.2, hb.1, hb.2⟩

/-- C5 witness: concrete instantiation at an adversarial empty name. -/
theorem c5_witness :
    0 ≤ (scoreComponent "" []).1 ∧ (scoreComponent "" []).1 ≤ 1 ∧
    0 ≤ (scoreComponent "" []).2 ∧ (scoreComponent "" []).2 ≤ 1 :=
  c5_scoreComponent_range "" []

/-- C7 counterexample: "abcde" and "abcdf" have no containment either way
and Levenshtein similarity exactly 0.8, yet the matcher at threshold 0.8
reports NO match, because the source compares with strict `>` rather than
the claimed `>=`. -/
theorem c7_counterexample :
    fuzzyMatch "abcde" "abcdf" (pct 80) = false ∧
    levSimilarity (normalize "abcde") (normalize "abcdf") = pct 80 ∧
    containsSub (normalize "abcde") (normalize "abcdf") = false ∧
    containsSub (normalize "abcdf") (normalize "abcde") = false := by
  have hsim : levSimilarity (normalize "abcde") (normalize "abcdf") = pct 80 := by
    rw [levSimilarity_eval (normalize "abcde") (normalize "abcdf") 1 5
      (by decide) (by decide) (by decide) (by decide)]
    norm_num [Rat.divInt_eq_div, pct]
  have hne : ¬ (normalize "abcde" = normalize "abcdf") := by decide
  have hc1 : containsSub (normalize "abcde") (normalize "abcdf") = false := by decide
  have hc2 : containsSub (normalize "abcdf") (normalize "abcde") = false := by decide
  refine ⟨?_, hsim, hc1, hc2⟩
  simp [fuzzyMatch, hne, hc1, hc2, hsim]

/-- C7 amended: the fuzzy matcher with threshold `t` reports a match
exactly when the lower-cased stripped strings are equal, or one contains
the other (regardless of `t`), or the edit-distance similarity is
STRICTLY greater than `t`; at similarity exactly equal to the threshold
and no containment it reports no match. -/
theorem c7_fuzzyMatch_characterization (a b : String) (t : ℚ) :
    fuzzyMatch a b t = true ↔
      (normalize a = normalize b ∨
       containsSub (normalize a) (normalize b) = true ∨
       containsSub (normalize b) (normalize a) = true ∨
       t < levSimilarity (normalize a) (normalize b)) := by
  simp only [fuzzyMatch]
  split_ifs with h1 h2 h3 <;> simp_all <;> tauto

/-- C8 counterexample: on two empty strings the matcher returns a MATCH
(at the default threshold 0.8, among others), because the case-insensitive
equality test precedes the similarity computation; the claim says the two
empty strings are treated as a non-match. -/
theorem c8_counterexample : fuzzyMatch "" "" (pct 80) = true := rfl

/-- C8 amended: `max(len(a),len(b)) == 0` indeed yields similarity 0.0
(no division by zero), but `is_match("", "", t)` is TRUE for every
threshold, via the exact-equality branch. -/
theorem c8_fuzzyMatch_empty (t : ℚ) :
    fuzzyMatch "" "" t = true ∧ levSimilarity (normalize "") (normalize "") = 0 :=
  ⟨rfl, rfl⟩

/-! ### Generic fold lemmas -/

lemma foldl_frame {α β : Type} (step : MapAnalysis → α → MapAnalysis) (proj : MapAnalysis → β)
    (hstep : ∀ a x, proj (step a x) = proj a) :
    ∀ (l : List α) (a : MapAnalysis), proj (l.foldl step a) = proj a := by
  intro l
  induction l with
  | nil => intro a; rfl
  | cons hd tl ih => intro a; rw [List.foldl_cons, ih, hstep]

lemma foldl_mem {α γ : Type} (step : MapAnalysis → α → MapAnalysis)
    (proj : MapAnalysis → List γ) (P : α → γ → Prop)
    (hstep : ∀ a x e, e ∈ proj (step a x) → e ∈ proj a ∨ P x e) :
    ∀ (l : List α) (a : MapAnalysis) (e : γ),
      e ∈ proj (l.foldl step a) → e ∈ proj a ∨ ∃ c ∈ l, P c e := by
  intro l
  induction l with
  | nil => intro a e he; exact .inl he
  | cons hd tl ih =>
    intro a e he
    rw [List.foldl_cons] at he
    rcases ih (step a hd) e he with h | ⟨c, hc, hp⟩
    · rcases hstep a hd e h with h' | hp
      · exact .inl h'
      · exact .inr ⟨hd, by simp, hp⟩
    · exact .inr ⟨c, by simp [hc], hp⟩

/-! ### Frame lemmas: which `MapAnalysis` fields each step leaves alone -/

lemma strengthsStep_frame (a : MapAnalysis) (c : Component) :
    (strengthsStep a c).vulnerabilities = a.vulnerabilities ∧
    (strengthsStep a c).opportunities = a.opportunities ∧
    (strengthsStep a c).threats = a.threats ∧
    (strengthsStep a c).strategic_recommendations = a.strategic_recommendations ∧
    (strengthsStep a c).evolution_trajectory = a.evolution_trajectory ∧
    (strengthsStep a c).critical_path = a.critical_path := by
  unfold strengthsStep
  split_ifs <;> simp

lemma opportunitiesStep_frame (a : MapAnalysis) (c : Component) :
    (opportunitiesStep a c).vulnerabilities = a.vulnerabilities ∧
    (opportunitiesStep a c).threats = a.threats ∧
    (opportunitiesStep a c).strategic_recommendations = a.strategic_recommendations ∧
    (opportunitiesStep a c).evolution_trajectory = a.evolution_trajectory ∧
    (opportunitiesStep a c).competitive_advantages = a.competitive_advantages ∧
    (opportunitiesStep a c).critical_path = a.critical_path := by
  unfold opportunitiesStep
  split_ifs <;> simp

lemma threatsStep_frame (a : MapAnalysis) (c : Component) :
    (threatsStep a c).vulnerabilities = a.vulnerabilities ∧
    (threatsStep a c).opportunities = a.opportunities ∧
    (threatsStep a c).strategic_recommendations = a.strategic_recommendations ∧
    (threatsStep a c).evolution_trajectory = a.evolution_trajectory ∧
    (threatsStep a c).competitive_advantages = a.competitive_advantages ∧
    (threatsStep a c).critical_path = a.critical_path := by
  unfold threatsStep
  split_ifs <;> simp

lemma bottlenecksStep_frame (g : List (String × List String)) (a : MapAnalysis) (c : Component) :
    (bottlenecksStep g a c).vulnerabilities = a.vulnerabilities ∧
    (bottlenecksStep g a c).opportunities = a.opportunities ∧
    (bottlenecksStep g a c).threats = a.threats ∧
    (bottlenecksStep g a c).strategic_recommendations = a.strategic_recommendations ∧
    (bottlenecksStep g a c).evolution_trajectory = a.evolution_trajectory ∧
    (bottlenecksStep g a c).competitive_advantages = a.competitive_advantages ∧
    (bottlenecksStep g a c).critical_path = a.critical_path := by
  unfold bottlenecksStep
  split_ifs <;> simp

lemma readinessStep_frame (a : MapAnalysis) (c : Component) :
    (readinessStep a c).vulnerabilities = a.vulnerabilities ∧
    (readinessStep a c).opportunities = a.opportunities ∧
    (readinessStep a c).threats = a.threats ∧
    (readinessStep a c).strategic_recommendations = a.strategic_recommendations ∧
    (readinessStep a c).competitive_advantages = a.competitive_advantages ∧
    (readinessStep a c).critical_path = a.critical_path := by
  unfold readinessStep
  split_ifs <;> simp

lemma criticalPath_frame (comps : List Component) (deps : List (String × String))
    (a : MapAnalysis) :
    (identifyCriticalPath comps deps a).vulnerabilities = a.vulnerabilities ∧
    (identifyCriticalPath comps deps a).opportunities = a.opportunities ∧
    (identifyCriticalPath comps deps a).threats = a.threats ∧
    (identifyCriticalPath comps deps a).strategic_recommendations = a.strategic_recommendations ∧
    (identifyCriticalPath comps deps a).evolution_trajectory = a.evolution_trajectory ∧
    (identifyCriticalPath comps deps a).competitive_advantages = a.competitive_advantages ∧
    (identifyCriticalPath comps deps a).insights = a.insights := by
  unfold identifyCriticalPath selectLongest
  split <;> simp

lemma generateRecommendations_frame (comps : List Component) (deps : List (String × String))
    (a : MapAnalysis) :
    (generateRecommendations comps deps a).vulnerabilities = a.vulnerabilities ∧
    (generateRecommendations comps deps a).opportunities = a.opportunities ∧
    (generateRecommendations comps deps a).threats = a.threats ∧
    (generateRecommendations comps deps a).evolution_trajectory = a.evolution_trajectory ∧
    (generateRecommendations comps deps a).competitive_advantages = a.competitive_advantages ∧
    (generateRecommendations comps deps a).critical_path = a.critical_path ∧
    (generateRecommendations comps deps a).insights = a.insights := by
  unfold generateRecommendations
  simp

lemma infraStep_frame (all : List Component) (n : String) (a : MapAnalysis) (t : String) :
    (infraStep all n a t).opportunities = a.opportunities ∧
    (infraStep all n a t).threats = a.threats ∧
    (infraStep all n a t).strategic_recommendations = a.strategic_recommendations ∧
    (infraStep all n a t).evolution_trajectory = a.evolution_trajectory ∧
    (infraStep all n a t).competitive_advantages = a.competitive_advantages ∧
    (infraStep all n a t).critical_path = a.critical_path := by
  unfold infraStep
  cases h : all.find? (fun c => c.name == t) with
  | none => simp [h]
  | some tc =>
    simp only [h]
    split_ifs <;> simp

lemma spofAdd_frame (a : MapAnalysis) (n p : String) :
    (spofAdd a n p).opportunities = a.opportunities ∧
    (spofAdd a n p).threats = a.threats ∧
    (spofAdd a n p).strategic_recommendations = a.strategic_recommendations ∧
    (spofAdd a n p).evolution_trajectory = a.evolution_trajectory ∧
    (spofAdd a n p).competitive_advantages = a.competitive_advantages ∧
    (spofAdd a n p).critical_path = a.critical_path := by
  unfold spofAdd
  simp

lemma infraFold_frame (all : List Component) (n : String) (l : List String) (a : MapAnalysis) :
    (l.foldl (infraStep all n) a).opportunities = a.opportunities ∧
    (l.foldl (infraStep all n) a).threats = a.threats ∧
    (l.foldl (infraStep all n) a).strategic_recommendations = a.strategic_recommendations ∧
    (l.foldl (infraStep all n) a).evolution_trajectory = a.evolution_trajectory ∧
    (l.foldl (infraStep all n) a).competitive_advantages = a.competitive_advantages ∧
    (l.foldl (infraStep all n) a).critical_path = a.critical_path :=
  ⟨foldl_frame _ _ (fun a x => (infraStep_frame all n a x).1) l a,
   foldl_frame _ _ (fun a x => (infraStep_frame all n a x).2.1) l a,
   foldl_frame _ _ (fun a x => (infraStep_frame all n a x).2.2.1) l a,
   foldl_frame _ _ (fun a x => (infraStep_frame all n a x).2.2.2.1) l a,
   foldl_frame _ _ (fun a x => (infraStep_frame all n a x).2.2.2.2.1) l a,
   foldl_frame _ _ (fun a x => (infraStep_frame all n a x).2.2.2.2.2) l a⟩

lemma vulnLoop_frame (all : List Component) (g : List (String × List String)) :
    ∀ (l : List Component) (cell : Option (List String)) (a a' : MapAnalysis),
      vulnLoop all g l cell a = .ok a' →
      a'.opportunities = a.opportunities ∧
      a'.threats = a.threats ∧
      a'.strategic_recommendations = a.strategic_recommendations ∧
      a'.evolution_trajectory = a.evolution_trajectory ∧
      a'.competitive_advantages = a.competitive_advantages ∧
      a'.critical_path = a.critical_path := by
  intro l
  induction l with
  | nil =>
    intro cell a a' h
    simp only [vulnLoop] at h
    cases h
    exact ⟨rfl, rfl, rfl, rfl, rfl, rfl⟩
  | cons hd tl ih =>
    intro cell a a' h
    simp only [vulnLoop] at h
    have hf1 := infraFold_frame all hd.name (graphGet g hd.name) a
    split_ifs at h with hvis hevo hlen hone hevo2
    · -- high visibility, custom stage, some deps, single provider
      have := ih _ _ _ h
      have hs := spofAdd_frame (List.foldl (infraStep all hd.name) a (graphGet g hd.name))
        hd.name ((graphGet g hd.name).eraseDups.headD "")
      exact ⟨by rw [this.1, hs.1, hf1.1],
             by rw [this.2.1, hs.2.1, hf1.2.1],
             by rw [this.2.2.1, hs.2.2.1, hf1.2.2.1],
             by rw [this.2.2.2.1, hs.2.2.2.1, hf1.2.2.2.1],
             by rw [this.2.2.2.2.1, hs.2.2.2.2.1, hf1.2.2.2.2.1],
             by rw [this.2.2.2.2.2, hs.2.2.2.2.2, hf1.2.2.2.2.2]⟩
    · -- high visibility, custom stage, several providers
      have := ih _ _ _ h
      exact ⟨by rw [this.1, hf1.1], by rw [this.2.1, hf1.2.1],
             by rw [this.2.2.1, hf1.2.2.1], by rw [this.2.2.2.1, hf1.2.2.2.1],
             by rw [this.2.2.2.2.1, hf1.2.2.2.2.1], by rw [this.2.2.2.2.2, hf1.2.2.2.2.2]⟩
    · -- high visibility, custom stage, no dependencies
      have := ih _ _ _ h
      exact ⟨by rw [this.1, hf1.1], by rw [this.2.1, hf1.2.1],
             by rw [this.2.2.1, hf1.2.2.1], by rw [this.2.2.2.1, hf1.2.2.2.1],
             by rw [this.2.2.2.2.1, hf1.2.2.2.2.1], by rw [this.2.2.2.2.2, hf1.2.2.2.2.2]⟩
    · -- high visibility, not custom stage
      have := ih _ _ _ h
      exact ⟨by rw [this.1, hf1.1], by rw [this.2.1, hf1.2.1],
             by rw [this.2.2.1, hf1.2.2.1], by rw [this.2.2.2.1, hf1.2.2.2.1],
             by rw [this.2.2.2.2.1, hf1.2.2.2.2.1], by rw [this.2.2.2.2.2, hf1.2.2.2.2.2]⟩
    · -- low visibility, custom stage: the stale cell decides
      split at h
      · exact Except.noConfusion h
      · rename_i deps
        split_ifs at h with hlen2 hone2
        · have := ih _ _ _ h
          have hs := spofAdd_frame a hd.name (deps.eraseDups.headD "")
          exact ⟨by rw [this.1, hs.1], by rw [this.2.1, hs.2.1],
                 by rw [this.2.2.1, hs.2.2.1], by rw [this.2.2.2.1, hs.2.2.2.1],
                 by rw [this.2.2.2.2.1, hs.2.2.2.2.1], by rw [this.2.2.2.2.2, hs.2.2.2.2.2]⟩
        · exact ih _ _ _ h
        · exact ih _ _ _ h
    · -- low visibility, not custom stage
      exact ih _ _ _ h

/-! ### Fold-level frames for the four simple passes -/

lemma identifyStrengths_frame (comps : List Component) (a : MapAnalysis) :
    (identifyStrengths comps a).vulnerabilities = a.vulnerabilities ∧
    (identifyStrengths comps a).opportunities = a.opportunities ∧
    (identifyStrengths comps a).threats = a.threats ∧
    (identifyStrengths comps a).strategic_recommendations = a.strategic_recommendations ∧
    (identifyStrengths comps a).evolution_trajectory = a.evolution_trajectory ∧
    (identifyStrengths comps a).critical_path = a.critical_path :=
  ⟨foldl_frame _ _ (fun a c => (strengthsStep_frame a c).1) comps a,
   foldl_frame _ _ (fun a c => (strengthsStep_frame a c).2.1) comps a,
   foldl_frame _ _ (fun a c => (strengthsStep_frame a c).2.2.1) comps a,
   foldl_frame _ _ (fun a c => (strengthsStep_frame a c).2.2.2.1) comps a,
   foldl_frame _ _ (fun a c => (strengthsStep_frame a c).2.2.2.2.1) comps a,
   foldl_frame _ _ (fun a c => (strengthsStep_frame a c).2.2.2.2.2) comps a⟩

lemma identifyOpportunities_frame (comps : List Component) (a : MapAnalysis) :
    (identifyOpportunities comps a).vulnerabilities = a.vulnerabilities ∧
    (identifyOpportunities comps a).threats = a.threats ∧
    (identifyOpportunities comps a).strategic_recommendations = a.strategic_recommendations ∧
    (identifyOpportunities comps a).evolution_trajectory = a.evolution_trajectory ∧
    (identifyOpportunities comps a).competitive_advantages = a.competitive_advantages ∧
    (identifyOpportunities comps a).critical_path = a.critical_path :=
  ⟨foldl_frame _ _ (fun a c => (opportunitiesStep_frame a c).1) comps a,
   foldl_frame _ _ (fun a c => (opportunitiesStep_frame a c).2.1) comps a,
   foldl_frame _ _ (fun a c => (opportunitiesStep_frame a c).2.2.1) comps a,
   foldl_frame _ _ (fun a c => (opportunitiesStep_frame a c).2.2.2.1) comps a,
   foldl_frame _ _ (fun a c => (opportunitiesStep_frame a c).2.2.2.2.1) comps a,
   foldl_frame _ _ (fun a c => (opportunitiesStep_frame a c).2.2.2.2.2) comps a⟩

lemma identifyThreats_frame (comps : List Component) (a : MapAnalysis) :
    (identifyThreats comps a).vulnerabilities = a.vulnerabilities ∧
    (identifyThreats comps a).opportunities = a.opportunities ∧
    (identifyThreats comps a).strategic_recommendations = a.strategic_recommendations ∧
    (identifyThreats comps a).evolution_trajectory = a.evolution_trajectory ∧
    (identifyThreats comps a).competitive_advantages = a.competitive_advantages ∧
    (identifyThreats comps a).critical_path = a.critical_path :=
  ⟨foldl_frame _ _ (fun a c => (threatsStep_frame a c).1) comps a,
   foldl_frame _ _ (fun a c => (threatsStep_frame a c).2.1) comps a,
   foldl_frame _ _ (fun a c => (threatsStep_frame a c).2.2.1) comps a,
   foldl_frame _ _ (fun a c => (threatsStep_frame a c).2.2.2.1) comps a,
   foldl_frame _ _ (fun a c => (threatsStep_frame a c).2.2.2.2.1) comps a,
   foldl_frame _ _ (fun a c => (threatsStep_frame a c).2.2.2.2.2) comps a⟩

lemma identifyBottlenecks_frame (comps : List Component) (deps : List (String × String))
    (a : MapAnalysis) :
    (identifyBottlenecks comps deps a).vulnerabilities = a.vulnerabilities ∧
    (identifyBottlenecks comps deps a).opportunities = a.opportunities ∧
    (identifyBottlenecks comps deps a).threats = a.threats ∧
    (identifyBottlenecks comps deps a).strategic_recommendations = a.strategic_recommendations ∧
    (identifyBottlenecks comps deps a).evolution_trajectory = a.evolution_trajectory ∧
    (identifyBottlenecks comps deps a).competitive_advantages = a.competitive_advantages ∧
    (identifyBottlenecks comps deps a).critical_path = a.critical_path :=
  ⟨foldl_frame _ _ (fun a c => (bottlenecksStep_frame _ a c).1) comps a,
   foldl_frame _ _ (fun a c => (bottlenecksStep_frame _ a c).2.1) comps a,
   foldl_frame _ _ (fun a c => (bottlenecksStep_frame _ a c).2.2.1) comps a,
   foldl_frame _ _ (fun a c => (bottlenecksStep_frame _ a c).2.2.2.1) comps a,
   foldl_frame _ _ (fun a c => (bottlenecksStep_frame _ a c).2.2.2.2.1) comps a,
   foldl_frame _ _ (fun a c => (bottlenecksStep_frame _ a c).2.2.2.2.2.1) comps a,
   foldl_frame _ _ (fun a c => (bottlenecksStep_frame _ a c).2.2.2.2.2.2) comps a⟩

lemma assessEvolutionReadiness_frame (comps : List Component) (a : MapAnalysis) :
    (assessEvolutionReadiness comps a).vulnerabilities = a.vulnerabilities ∧
    (assessEvolutionReadiness comps a).opportunities = a.opportunities ∧
    (assessEvolutionReadiness comps a).threats = a.threats ∧
    (assessEvolutionReadiness comps a).strategic_recommendations = a.strategic_recommendations ∧
    (assessEvolutionReadiness comps a).competitive_advantages = a.competitive_advantages ∧
    (assessEvolutionReadiness comps a).critical_path = a.critical_path :=
  ⟨foldl_frame _ _ (fun a c => (readinessStep_frame a c).1) comps a,
   foldl_frame _ _ (fun a c => (readinessStep_frame a c).2.1) comps a,
   foldl_frame _ _ (fun a c => (readinessStep_frame a c).2.2.1) comps a,
   foldl_frame _ _ (fun a c => (readinessStep_frame a c).2.2.2.1) comps a,
   foldl_frame _ _ (fun a c => (readinessStep_frame a c).2.2.2.2.1) comps a,
   foldl_frame _ _ (fun a c => (readinessStep_frame a c).2.2.2.2.2) comps a⟩

/-! ### Membership lemmas: names entering the output lists -/

lemma strengthsStep_adv_mem (a : MapAnalysis) (c : Component) (e : String)
    (h : e ∈ (strengthsStep a c).competitive_advantages) :
    e ∈ a.competitive_advantages ∨ e = c.name := by
  unfold strengthsStep at h
  split_ifs at h <;> simp_all [List.mem_append] <;> tauto

lemma opportunitiesStep_opp_mem (a : MapAnalysis) (c : Component) (e : String)
    (h : e ∈ (opportunitiesStep a c).opportunities) :
    e ∈ a.opportunities ∨ e = c.name ∨ e = c.name ++ " (expansion)" := by
  unfold opportunitiesStep at h
  split_ifs at h <;> simp_all [List.mem_append] <;> tauto

lemma threatsStep_threat_mem (a : MapAnalysis) (c : Component) (e : String)
    (h : e ∈ (threatsStep a c).threats) :
    e ∈ a.threats ∨ e = c.name ∨ e = c.name ++ " (competition)" := by
  unfold threatsStep at h
  split_ifs at h <;> simp_all [List.mem_append] <;> tauto

lemma strengthsStep_insight_mem (a : MapAnalysis) (c : Component) (i : StrategicInsight)
    (h : i ∈ (strengthsStep a c).insights) :
    i ∈ a.insights ∨ i.component = c.name := by
  unfold strengthsStep at h
  split_ifs at h <;> simp_all [List.mem_append] <;> aesop

lemma opportunitiesStep_insight_mem (a : MapAnalysis) (c : Component) (i : StrategicInsight)
    (h : i ∈ (opportunitiesStep a c).insights) :
    i ∈ a.insights ∨ i.component = c.name := by
  unfold opportunitiesStep at h
  split_ifs at h <;> simp_all [List.mem_append] <;> aesop

lemma threatsStep_insight_mem (a : MapAnalysis) (c : Component) (i : StrategicInsight)
    (h : i ∈ (threatsStep a c).insights) :
    i ∈ a.insights ∨ i.component = c.name := by
  unfold threatsStep at h
  split_ifs at h <;> simp_all [List.mem_append] <;> aesop

lemma bottlenecksStep_insight_mem (g : List (String × List String)) (a : MapAnalysis)
    (c : Component) (i : StrategicInsight)
    (h : i ∈ (bottlenecksStep g a c).insights) :
    i ∈ a.insights ∨ i.component = c.name := by
  unfold bottlenecksStep at h
  split_ifs at h <;> simp_all [List.mem_append] <;> aesop

lemma readinessStep_insight_mem (a : MapAnalysis) (c : Component) (i : StrategicInsight)
    (h : i ∈ (readinessStep a c).insights) :
    i ∈ a.insights ∨ i.component = c.name := by
  unfold readinessStep at h
  split_ifs at h <;> simp_all [List.mem_append] <;> aesop

lemma infraStep_insight_mem (all : List Component) (n : String) (a : MapAnalysis) (t : String)
    (i : StrategicInsight) (h : i ∈ (infraStep all n a t).insights) :
    i ∈ a.insights ∨ i.component = n := by
  unfold infraStep at h
  split at h
  · split_ifs at h <;> simp_all [List.mem_append, infraVulnInsight] <;> aesop
  · exact .inl h

lemma spofAdd_insight_mem (a : MapAnalysis) (n p : String) (i : StrategicInsight)
    (h : i ∈ (spofAdd a n p).insights) :
    i ∈ a.insights ∨ i.component = n := by
  unfold spofAdd spofInsight at h
  simp_all [List.mem_append]
  aesop

lemma identifyStrengths_adv_mem (comps : List Component) (a : MapAnalysis) (e : String)
    (h : e ∈ (identifyStrengths comps a).competitive_advantages) :
    e ∈ a.competitive_advantages ∨ ∃ c ∈ comps, e = c.name :=
  foldl_mem strengthsStep (·.competitive_advantages) (fun c e => e = c.name)
    strengthsStep_adv_mem comps a e h

lemma identifyOpportunities_opp_mem (comps : List Component) (a : MapAnalysis) (e : String)
    (h : e ∈ (identifyOpportunities comps a).opportunities) :
    e ∈ a.opportunities ∨ ∃ c ∈ comps, e = c.name ∨ e = c.name ++ " (expansion)" :=
  foldl_mem opportunitiesStep (·.opportunities)
    (fun c e => e = c.name ∨ e = c.name ++ " (expansion)")
    opportunitiesStep_opp_mem comps a e h

lemma identifyThreats_threat_mem (comps : List Component) (a : MapAnalysis) (e : String)
    (h : e ∈ (identifyThreats comps a).threats) :
    e ∈ a.threats ∨ ∃ c ∈ comps, e = c.name ∨ e = c.name ++ " (competition)" :=
  foldl_mem threatsStep (·.threats)
    (fun c e => e = c.name ∨ e = c.name ++ " (competition)")
    threatsStep_threat_mem comps a e h

lemma identifyStrengths_insight_mem (comps : List Component) (a : MapAnalysis)
    (i : StrategicInsight) (h : i ∈ (identifyStrengths comps a).insights) :
    i ∈ a.insights ∨ ∃ c ∈ comps, i.component = c.name :=
  foldl_mem strengthsStep (·.insights) (fun c i => i.component = c.name)
    strengthsStep_insight_mem comps a i h

lemma identifyOpportunities_insight_mem (comps : List Component) (a : MapAnalysis)
    (i : StrategicInsight) (h : i ∈ (identifyOpportunities comps a).insights) :
    i ∈ a.insights ∨ ∃ c ∈ comps, i.component = c.name :=
  foldl_mem opportunitiesStep (·.insights) (fun c i => i.component = c.name)
    opportunitiesStep_insight_mem comps a i h

lemma identifyThreats_insight_mem (comps : List Component) (a : MapAnalysis)
    (i : StrategicInsight) (h : i ∈ (identifyThreats comps a).insights) :
    i ∈ a.insights ∨ ∃ c ∈ comps, i.component = c.name :=
  foldl_mem threatsStep (·.insights) (fun c i => i.component = c.name)
    threatsStep_insight_mem comps a i h

lemma identifyBottlenecks_insight_mem (comps : List Component) (deps : List (String × String))
    (a : MapAnalysis) (i : StrategicInsight)
    (h : i ∈ (identifyBottlenecks comps deps a).insights) :
    i ∈ a.insights ∨ ∃ c ∈ comps, i.component = c.name :=
  foldl_mem (bottlenecksStep (buildReverseDependencyGraph deps)) (·.insights)
    (fun c i => i.component = c.name)
    (bottlenecksStep_insight_mem (buildReverseDependencyGraph deps)) comps a i h

lemma assessEvolutionReadiness_insight_mem (comps : List Component) (a : MapAnalysis)
    (i : StrategicInsight) (h : i ∈ (assessEvolutionReadiness comps a).insights) :
    i ∈ a.insights ∨ ∃ c ∈ comps, i.component = c.name :=
  foldl_mem readinessStep (·.insights) (fun c i => i.component = c.name)
    readinessStep_insight_mem comps a i h

lemma infraFold_insight_mem (all : List Component) (n : String) (l : List String)
    (a : MapAnalysis) (i : StrategicInsight)
    (h : i ∈ (l.foldl (infraStep all n) a).insights) :
    i ∈ a.insights ∨ i.component = n := by
  rcases foldl_mem (infraStep all n) (·.insights) (fun _ i => i.component = n)
    (fun a t i => infraStep_insight_mem all n a t i) l a i h with h' | ⟨_, _, hp⟩
  · exact .inl h'
  · exact .inr hp

lemma vulnLoop_insight_mem (all : List Component) (g : List (String × List String)) :
    ∀ (l : List Component) (cell : Option (List String)) (a a' : MapAnalysis),
      vulnLoop all g l cell a = .ok a' →
      ∀ i ∈ a'.insights, i ∈ a.insights ∨ ∃ c ∈ l, i.component = c.name := by
  intro l
  induction l with
  | nil =>
    intro cell a a' h i hi
    simp only [vulnLoop] at h
    cases h
    exact .inl hi
  | cons hd tl ih =>
    intro cell a a' h i hi
    simp only [vulnLoop] at h
    split_ifs at h with hvis hevo hlen hone hevo2
    · rcases ih _ _ _ h i hi with h1 | ⟨c, hc, hp⟩
      · rcases spofAdd_insight_mem _ _ _ _ h1 with h2 | h2
        · rcases infraFold_insight_mem all hd.name _ _ _ h2 with h3 | h3
          · exact .inl h3
          · exact .inr ⟨hd, by simp, h3⟩
        · exact .inr ⟨hd, by simp, h2⟩
      · exact .inr ⟨c, by simp [hc], hp⟩
    · rcases ih _ _ _ h i hi with h1 | ⟨c, hc, hp⟩
      · rcases infraFold_insight_mem all hd.name _ _ _ h1 with h3 | h3
        · exact .inl h3
        · exact .inr ⟨hd, by simp, h3⟩
      · exact .inr ⟨c, by simp [hc], hp⟩
    · rcases ih _ _ _ h i hi with h1 | ⟨c, hc, hp⟩
      · rcases infraFold_insight_mem all hd.name _ _ _ h1 with h3 | h3
        · exact .inl h3
        · exact .inr ⟨hd, by simp, h3⟩
      · exact .inr ⟨c, by simp [hc], hp⟩
    · rcases ih _ _ _ h i hi with h1 | ⟨c, hc, hp⟩
      · rcases infraFold_insight_mem all hd.name _ _ _ h1 with h3 | h3
        · exact .inl h3
        · exact .inr ⟨hd, by simp, h3⟩
      · exact .inr ⟨c, by simp [hc], hp⟩
    · split at h
      · exact Except.noConfusion h
      · rename_i deps
        split_ifs at h with hlen2 hone2
        · rcases ih _ _ _ h i hi with h1 | ⟨c, hc, hp⟩
          · rcases spofAdd_insight_mem _ _ _ _ h1 with h2 | h2
            · exact .inl h2
            · exact .inr ⟨hd, by simp, h2⟩
          · exact .inr ⟨c, by simp [hc], hp⟩
        · rcases ih _ _ _ h i hi with h1 | ⟨c, hc, hp⟩
          · exact .inl h1
          · exact .inr ⟨c, by simp [hc], hp⟩
        · rcases ih _ _ _ h i hi with h1 | ⟨c, hc, hp⟩
          · exact .inl h1
          · exact .inr ⟨c, by simp [hc], hp⟩
    · rcases ih _ _ _ h i hi with h1 | ⟨c, hc, hp⟩
      · exact .inl h1
      · exact .inr ⟨c, by simp [hc], hp⟩

/-! ### Dictionary and trajectory lemmas -/

lemma dictSet_lookup_self (d : List (String × String)) (k v : String) :
    List.lookup k (dictSet d k v) = some v := by
  induction d with
  | nil => simp [dictSet, List.lookup]
  | cons hd tl ih =>
    obtain ⟨k', v'⟩ := hd
    unfold dictSet
    split_ifs with hk
    · subst hk; simp [List.lookup]
    · simp only [List.lookup]
      rw [show (k == k') = false from beq_eq_false_iff_ne.mpr (fun he => hk he.symm)]
      exact ih

lemma dictSet_lookup_ne (d : List (String × String)) (k v g : String) (h : g ≠ k) :
    List.lookup g (dictSet d k v) = List.lookup g d := by
  induction d with
  | nil =>
    simp only [dictSet, List.lookup]
    rw [show (g == k) = false from beq_eq_false_iff_ne.mpr h]
  | cons hd tl ih =>
    obtain ⟨k', v'⟩ := hd
    unfold dictSet
    split_ifs with hk
    · subst hk
      simp only [List.lookup]
      rw [show (g == k') = false from beq_eq_false_iff_ne.mpr h]
    · simp only [List.lookup]
      cases hg : g == k' with
      | true => rfl
      | false => exact ih

lemma readinessStep_traj (a : MapAnalysis) (c : Component) :
    (readinessStep a c).evolution_trajectory =
      if pct 80 ≤ c.evolution then a.evolution_trajectory
      else dictSet a.evolution_trajectory c.name (trajectoryLabel c.evolution) := by
  unfold readinessStep trajectoryLabel
  split_ifs <;> rfl

lemma readiness_traj_stable (name : String) :
    ∀ (comps : List Component), (∀ c ∈ comps, c.name ≠ name) → ∀ (a : MapAnalysis),
      List.lookup name (assessEvolutionReadiness comps a).evolution_trajectory =
        List.lookup name a.evolution_trajectory := by
  intro comps
  induction comps with
  | nil => intro _ a; rfl
  | cons hd tl ih =>
    intro h a
    have hstep : assessEvolutionReadiness (hd :: tl) a =
        assessEvolutionReadiness tl (readinessStep a hd) := rfl
    rw [hstep, ih (fun c hc => h c (by simp [hc])), readinessStep_traj]
    split_ifs
    · rfl
    · exact dictSet_lookup_ne _ _ _ _ (fun he => h hd (by simp) he.symm)

lemma readiness_traj_lookup :
    ∀ (comps : List Component) (a : MapAnalysis) (c : Component),
      (comps.map Component.name).Nodup → c ∈ comps →
      List.lookup c.name a.evolution_trajectory = none →
      List.lookup c.name (assessEvolutionReadiness comps a).evolution_trajectory =
        (if c.evolution < pct 80 then some (trajectoryLabel c.evolution) else none) := by
  intro comps
  induction comps with
  | nil => intro a c _ hc; exact absurd hc (by simp)
  | cons hd tl ih =>
    intro a c hnd hc h0
    have hstep : assessEvolutionReadiness (hd :: tl) a =
        assessEvolutionReadiness tl (readinessStep a hd) := rfl
    have hnd' : hd.name ∉ tl.map Component.name ∧ (tl.map Component.name).Nodup := by
      rw [List.map_cons, List.nodup_cons] at hnd
      exact hnd
    rw [hstep]
    rcases List.mem_cons.mp hc with rfl | hc'
    · have hnotin : ∀ x ∈ tl, x.name ≠ c.name := by
        intro x hx he
        exact hnd'.1 (he ▸ List.mem_map_of_mem Component.name hx)
      rw [readiness_traj_stable c.name tl hnotin, readinessStep_traj]
      split_ifs with h80 hlt hlt
      · exact absurd hlt (not_lt.mpr h80)
      · exact h0
      · exact dictSet_lookup_self _ _ _
      · exact absurd (lt_of_not_le h80) hlt
    · refine ih (readinessStep a hd) c hnd'.2 hc' ?_
      have hne : c.name ≠ hd.name := by
        intro he
        exact hnd'.1 (he ▸ List.mem_map_of_mem Component.name hc')
      rw [readinessStep_traj]
      split_ifs
      · exact h0
      · rw [dictSet_lookup_ne _ _ _ _ hne]; exact h0

lemma dictSet_cons (k' v' : String) (tl : List (String × String)) (k v : String) :
    dictSet ((k', v') :: tl) k v =
      if k' = k then (k', v) :: tl else (k', v') :: dictSet tl k v := rfl

lemma dictSet_keys (d : List (String × String)) (k v : String) :
    (dictSet d k v).map Prod.fst =
      if k ∈ d.map Prod.fst then d.map Prod.fst else d.map Prod.fst ++ [k] := by
  induction d with
  | nil => simp [dictSet]
  | cons hd tl ih =>
    obtain ⟨k', v'⟩ := hd
    rw [dictSet_cons]
    by_cases hk : k' = k
    · subst hk
      rw [if_pos rfl, if_pos (by simp)]
      simp
    · rw [if_neg hk]
      simp only [List.map_cons]
      rw [ih]
      by_cases hmem : k ∈ tl.map Prod.fst
      · rw [if_pos hmem, if_pos (by simp [hmem])]
      · rw [if_neg hmem,
          if_neg (by
            simp only [List.mem_cons]
            exact fun hor => hor.elim (fun he => hk he.symm) hmem),
          List.cons_append]

lemma dictSet_keys_nodup (d : List (String × String)) (k v : String)
    (h : (d.map Prod.fst).Nodup) : ((dictSet d k v).map Prod.fst).Nodup := by
  rw [dictSet_keys]
  split_ifs with hmem
  · exact h
  · simp [List.nodup_append, h, hmem]

lemma readiness_traj_keys_nodup :
    ∀ (comps : List Component) (a : MapAnalysis),
      ((a.evolution_trajectory).map Prod.fst).Nodup →
      (((assessEvolutionReadiness comps a).evolution_trajectory).map Prod.fst).Nodup := by
  intro comps
  induction comps with
  | nil => intro a h; exact h
  | cons hd tl ih =>
    intro a h
    have hstep : assessEvolutionReadiness (hd :: tl) a =
        assessEvolutionReadiness tl (readinessStep a hd) := rfl
    rw [hstep]
    refine ih _ ?_
    rw [readinessStep_traj]
    split_ifs
    · exact h
    · exact dictSet_keys_nodup _ _ _ h

/-! ### Claims C1, C2 -/

/-- C2: the claim says the single-point-of-failure pass flags exactly the
custom-stage components whose own out-edge set has one distinct target and
never raises.  The code contradicts this: the Python local `deps` is
assigned only under `visibility >= 0.7`, so (first conjunct) a lone
custom-stage, low-visibility component crashes the pass with
`UnboundLocalError` even with an empty dependency list, and (second
conjunct) a custom-stage component with NO out-edges is flagged as a
single point of failure on another component's stale `deps` (here "A" is
reported with single source "C", the dependency of "B").  This evaluates
the embedded code at the failing inputs. -/
theorem c2_spof_pass_unbound_local :
    analysisIsError (analyze [⟨"A", pct 50, pct 40⟩] []) = true ∧
    analysisVulnerabilities (analyze [⟨"B", pct 80, pct 90⟩, ⟨"A", pct 30, pct 40⟩]
      [("B", "C")]) = ["A: Single source - C"] :=
  ⟨by decide, by decide⟩

/-- C1 counterexample: with the single component A (visibility 0.5,
evolution 0.1) and the dangling edge ("A", "Ghost"), `analyze` completes
and "Ghost" DOES appear in `critical_path` (the DFS follows edge targets
without checking they are components); and with A at evolution 0.4 the
same dangling-edge call raises (`deps` scoping bug), so neither the
"completes without raising" nor the "unknown name appears in no output"
half of the claim holds as stated. -/
theorem c1_counterexample :
    analysisCriticalPath (analyze [⟨"A", pct 50, pct 10⟩] [("A", "Ghost")]) = ["A", "Ghost"] ∧
    analysisIsError (analyze [⟨"A", pct 50, pct 10⟩] [("A", "Ghost")]) = false ∧
    analysisIsError (analyze [⟨"A", pct 50, pct 40⟩] [("A", "Ghost")]) = true :=
  ⟨by decide, by decide, by decide⟩

/-- C1 (amended): when `analyze` returns normally, a name `g` that is not
a component name (and does not collide with the derived
"name (expansion)" / "name (competition)" strings) appears in none of
`competitive_advantages`, `opportunities`, `threats`, the
`evolution_trajectory` keys, and is not the component of any insight; it
MAY appear in `critical_path` and inside formatted vulnerability strings
(shown by the counterexample), and the call may raise when a custom-stage
component precedes any high-visibility one. -/
theorem c1_dangling_names_confined (comps : List Component) (deps : List (String × String))
    (g : String)
    (hg : ∀ c ∈ comps, g ≠ c.name ∧ g ≠ c.name ++ " (expansion)" ∧
      g ≠ c.name ++ " (competition)")
    (a : MapAnalysis) (h : analyze comps deps = .ok a) :
    g ∉ a.competitive_advantages ∧ g ∉ a.opportunities ∧ g ∉ a.threats ∧
    List.lookup g a.evolution_trajectory = none ∧
    ∀ i ∈ a.insights, i.component ≠ g := by
  unfold analyze at h
  cases hv : identifyVulnerabilities comps deps
      (identifyStrengths comps
        { total_components := comps.length, total_dependencies := deps.length }) with
  | error e => rw [hv] at h; exact Except.noConfusion h
  | ok a2 =>
    rw [hv] at h
    have ha : a = generateRecommendations comps deps
        (identifyCriticalPath comps deps
          (assessEvolutionReadiness comps
            (identifyBottlenecks comps deps
              (identifyThreats comps
                (identifyOpportunities comps a2))))) := (Except.ok.inj h).symm
    subst ha
    set a0 : MapAnalysis :=
      { total_components := comps.length, total_dependencies := deps.length } with ha0
    set a3 := identifyOpportunities comps a2 with ha3
    set a4 := identifyThreats comps a3 with ha4
    set a5 := identifyBottlenecks comps deps a4 with ha5
    set a6 := assessEvolutionReadiness comps a5 with ha6
    set a7 := identifyCriticalPath comps deps a6 with ha7
    have hframe := vulnLoop_frame comps (buildDependencyGraph deps) comps none
      (identifyStrengths comps a0) a2 hv
    refine ⟨?_, ?_, ?_, ?_, ?_⟩
    · -- competitive advantages
      intro hmem
      rw [(generateRecommendations_frame comps deps a7).2.2.2.2.1,
        (criticalPath_frame comps deps a6).2.2.2.2.2.1,
        (assessEvolutionReadiness_frame comps a5).2.2.2.2.1,
        (identifyBottlenecks_frame comps deps a4).2.2.2.2.2.1,
        (identifyThreats_frame comps a3).2.2.2.2.1,
        (identifyOpportunities_frame comps a2).2.2.2.2.1,
        hframe.2.2.2.2.1] at hmem
      rcases identifyStrengths_adv_mem comps a0 g hmem with h0 | ⟨c, hc, he⟩
      · simp [ha0] at h0
      · exact (hg c hc).1 he
    · -- opportunities
      intro hmem
      rw [(generateRecommendations_frame comps deps a7).2.1,
        (criticalPath_frame comps deps a6).2.1,
        (assessEvolutionReadiness_frame comps a5).2.1,
        (identifyBottlenecks_frame comps deps a4).2.1,
        (identifyThreats_frame comps a3).2.1] at hmem
      rcases identifyOpportunities_opp_mem comps a2 g hmem with h0 | ⟨c, hc, he | he⟩
      · rw [hframe.1, (identifyStrengths_frame comps a0).2.1] at h0
        simp [ha0] at h0
      · exact (hg c hc).1 he
      · exact (hg c hc).2.1 he
    · -- threats
      intro hmem
      rw [(generateRecommendations_frame comps deps a7).2.2.1,
        (criticalPath_frame comps deps a6).2.2.1,
        (assessEvolutionReadiness_frame comps a5).2.2.1,
        (identifyBottlenecks_frame comps deps a4).2.2.1] at hmem
      rcases identifyThreats_threat_mem comps a3 g hmem with h0 | ⟨c, hc, he | he⟩
      · rw [(identifyOpportunities_frame comps a2).2.1, hframe.2.1,
          (identifyStrengths_frame comps a0).2.2.1] at h0
        simp [ha0] at h0
      · exact (hg c hc).1 he
      · exact (hg c hc).2.2 he
    · -- evolution trajectory keys
      rw [(generateRecommendations_frame comps deps a7).2.2.2.1,
        (criticalPath_frame comps deps a6).2.2.2.2.1, ha6,
        readiness_traj_stable g comps (fun c hc he => (hg c hc).1 he.symm) a5,
        (identifyBottlenecks_frame comps deps a4).2.2.2.2.1,
        (identifyThreats_frame comps a3).2.2.2.1,
        (identifyOpportunities_frame comps a2).2.2.2.1,
        hframe.2.2.2.1,
        (identifyStrengths_frame comps a0).2.2.2.2.1]
      rfl
    · -- insights
      intro i hi
      rw [(generateRecommendations_frame comps deps a7).2.2.2.2.2.2,
        (criticalPath_frame comps deps a6).2.2.2.2.2.2, ha6] at hi
      rcases assessEvolutionReadiness_insight_mem comps a5 i hi with h5 | ⟨c, hc, he⟩
      · rw [ha5] at h5
        rcases identifyBottlenecks_insight_mem comps deps a4 i h5 with h4 | ⟨c, hc, he⟩
        · rw [ha4] at h4
          rcases identifyThreats_insight_mem comps a3 i h4 with h3 | ⟨c, hc, he⟩
          · rw [ha3] at h3
            rcases identifyOpportunities_insight_mem comps a2 i h3 with h2 | ⟨c, hc, he⟩
            · rcases vulnLoop_insight_mem comps (buildDependencyGraph deps) comps none
                  (identifyStrengths comps a0) a2 hv i h2 with h1 | ⟨c, hc, he⟩
              · rcases identifyStrengths_insight_mem comps a0 i h1 with h0 | ⟨c, hc, he⟩
                · simp [ha0] at h0
                · exact fun hgg => (hg c hc).1 (hgg ▸ he)
              · exact fun hgg => (hg c hc).1 (hgg ▸ he)
            · exact fun hgg => (hg c hc).1 (hgg ▸ he)
          · exact fun hgg => (hg c hc).1 (hgg ▸ he)
        · exact fun hgg => (hg c hc).1 (hgg ▸ he)
      · exact fun hgg => (hg c hc).1 (hgg ▸ he)

/-- C1 witness: the amended theorem applied at the spec's dangling-edge
input. -/
theorem c1_witness :
    "Ghost" ∉ (analysisOk (analyze [⟨"A", pct 50, pct 10⟩]
        [("A", "Ghost")])).competitive_advantages ∧
    "Ghost" ∉ (analysisOk (analyze [⟨"A", pct 50, pct 10⟩] [("A", "Ghost")])).opportunities ∧
    "Ghost" ∉ (analysisOk (analyze [⟨"A", pct 50, pct 10⟩] [("A", "Ghost")])).threats ∧
    List.lookup "Ghost" (analysisOk (analyze [⟨"A", pct 50, pct 10⟩]
        [("A", "Ghost")])).evolution_trajectory = none ∧
    ∀ i ∈ (analysisOk (analyze [⟨"A", pct 50, pct 10⟩] [("A", "Ghost")])).insights,
      i.component ≠ "Ghost" :=
  c1_dangling_names_confined [⟨"A", pct 50, pct 10⟩] [("A", "Ghost")] "Ghost"
    (by decide) _ rfl

/-! ### Claim C6 -/

/-- C6: in every completed analysis over distinctly named components, each
component with evolution below 0.8 has exactly one evolution-trajectory
entry under its name, holding its current stage and target stage (genesis
components map to "Genesis → Product"), while components at 0.8 or above
have none; the trajectory keys are duplicate-free.  In particular, for the
spec's scenario 3 input, "Custom ML Model" is absent from
`competitive_advantages` but present in `evolution_trajectory` with
"Genesis → Product". -/
theorem c6_evolution_trajectory :
    (∀ (comps : List Component) (deps : List (String × String)) (a : MapAnalysis),
      analyze comps deps = .ok a → (comps.map Component.name).Nodup →
      (∀ c ∈ comps,
        (c.evolution < pct 80 →
          List.lookup c.name a.evolution_trajectory = some (trajectoryLabel c.evolution)) ∧
        (pct 80 ≤ c.evolution → List.lookup c.name a.evolution_trajectory = none)) ∧
      ((a.evolution_trajectory.map Prod.fst).Nodup)) ∧
    "Custom ML Model" ∉ (analysisOk (analyze
      [⟨"Custom ML Model", pct 40, pct 20⟩, ⟨"Database", pct 10, pct 90⟩]
      [("Custom ML Model", "Database")])).competitive_advantages ∧
    List.lookup "Custom ML Model" (analysisOk (analyze
      [⟨"Custom ML Model", pct 40, pct 20⟩, ⟨"Database", pct 10, pct 90⟩]
      [("Custom ML Model", "Database")])).evolution_trajectory =
        some "Genesis → Product" := by
  refine ⟨?_, by decide, by decide⟩
  intro comps deps a h hnd
  unfold analyze at h
  cases hv : identifyVulnerabilities comps deps
      (identifyStrengths comps
        { total_components := comps.length, total_dependencies := deps.length }) with
  | error e => rw [hv] at h; exact Except.noConfusion h
  | ok a2 =>
    rw [hv] at h
    have ha : a = generateRecommendations comps deps
        (identifyCriticalPath comps deps
          (assessEvolutionReadiness comps
            (identifyBottlenecks comps deps
              (identifyThreats comps
                (identifyOpportunities comps a2))))) := (Except.ok.inj h).symm
    subst ha
    set a0 : MapAnalysis :=
      { total_components := comps.length, total_dependencies := deps.length } with ha0
    set a3 := identifyOpportunities comps a2 with ha3
    set a4 := identifyThreats comps a3 with ha4
    set a5 := identifyBottlenecks comps deps a4 with ha5
    set a6 := assessEvolutionReadiness comps a5 with ha6
    set a7 := identifyCriticalPath comps deps a6 with ha7
    have hframe := vulnLoop_frame comps (buildDependencyGraph deps) comps none
      (identifyStrengths comps a0) a2 hv
    have hbase : a5.evolution_trajectory = [] := by
      rw [ha5, (identifyBottlenecks_frame comps deps a4).2.2.2.2.1,
        ha4, (identifyThreats_frame comps a3).2.2.2.1,
        ha3, (identifyOpportunities_frame comps a2).2.2.2.1,
        hframe.2.2.2.1,
        (identifyStrengths_frame comps a0).2.2.2.2.1]
    have htraj : (generateRecommendations comps deps a7).evolution_trajectory =
        (assessEvolutionReadiness comps a5).evolution_trajectory := by
      rw [(generateRecommendations_frame comps deps a7).2.2.2.1,
        ha7, (criticalPath_frame comps deps a6).2.2.2.2.1, ha6]
    constructor
    · intro c hc
      have hnone : List.lookup c.name a5.evolution_trajectory = none := by
        rw [hbase]; rfl
      constructor
      · intro hev
        rw [htraj, readiness_traj_lookup comps a5 c hnd hc hnone, if_pos hev]
      · intro hge
        rw [htraj, readiness_traj_lookup comps a5 c hnd hc hnone,
          if_neg (not_lt.mpr hge)]
    · rw [htraj]
      exact readiness_traj_keys_nodup comps a5 (by rw [hbase]; exact List.nodup_nil)

/-- C6 witness: the main conjunct applied at the scenario-3 components. -/
theorem c6_witness :
    List.lookup "Custom ML Model" (analysisOk (analyze
      [⟨"Custom ML Model", pct 40, pct 20⟩, ⟨"Database", pct 10, pct 90⟩]
      [("Custom ML Model", "Database")])).evolution_trajectory =
        some (trajectoryLabel (pct 20)) :=
  ((c6_evolution_trajectory.1
      [⟨"Custom ML Model", pct 40, pct 20⟩, ⟨"Database", pct 10, pct 90⟩]
      [("Custom ML Model", "Database")] _ rfl (by decide)).1
    ⟨"Custom ML Model", pct 40, pct 20⟩ (by simp)).1 (by decide)

/-! ### Claim C3: termination of the longest-path DFS -/

lemma lookup_some_mem_keys {β : Type} (g : List (String × β)) (s : String) (l : β)
    (h : List.lookup s g = some l) : s ∈ g.map Prod.fst := by
  induction g with
  | nil => simp [List.lookup] at h
  | cons hd tl ih =>
    rw [List.lookup] at h
    by_cases hs : s == hd.1
    · simp only [List.map_cons, List.mem_cons]
      exact .inl (by simpa using hs)
    · simp only [Bool.not_eq_true] at hs
      simp only [hs] at h
      exact List.mem_cons_of_mem _ (ih h)

lemma graphGet_nonempty_mem_keys (g : List (String × List String)) (s : String)
    (h : ¬ (graphGet g s).isEmpty = true) : s ∈ g.map Prod.fst := by
  unfold graphGet at h
  cases hl : List.lookup s g with
  | none => rw [hl] at h; simp at h
  | some l => exact lookup_some_mem_keys g s l hl

lemma filter_length_mono {α : Type} (p q : α → Bool) (hpq : ∀ x, q x = true → p x = true) :
    ∀ (l : List α), (l.filter q).length ≤ (l.filter p).length := by
  intro l
  induction l with
  | nil => simp
  | cons hd tl ih =>
    rw [List.filter_cons, List.filter_cons]
    cases hq : q hd with
    | true =>
      rw [if_pos rfl, hpq hd hq, if_pos rfl]
      simp only [List.length_cons]
      omega
    | false =>
      rw [if_neg Bool.false_ne_true]
      cases hp : p hd with
      | true =>
        rw [if_pos rfl]
        simp only [List.length_cons]
        omega
      | false =>
        rw [if_neg Bool.false_ne_true]
        exact ih

lemma filter_notMem_cons_lt (A : List String) (s : String) (v : List String)
    (hsA : s ∈ A) (hsv : s ∉ v) :
    (A.filter (fun k => decide (k ∉ s :: v))).length <
      (A.filter (fun k => decide (k ∉ v))).length := by
  induction A with
  | nil => simp at hsA
  | cons x A' ih =>
    rw [List.filter_cons, List.filter_cons]
    by_cases hx : x = s
    · subst hx
      rw [show (decide (x ∉ x :: v)) = false by simp, if_neg Bool.false_ne_true,
        show (decide (x ∉ v)) = true by simpa using hsv, if_pos rfl]
      have hmono := filter_length_mono (fun k => decide (k ∉ v))
        (fun k => decide (k ∉ x :: v))
        (fun k hk => by
          simp only [decide_eq_true_eq] at hk ⊢
          exact fun hkv => hk (List.mem_cons_of_mem _ hkv)) A'
      simp only [List.length_cons]
      omega
    · have hsA' : s ∈ A' := by
        rcases List.mem_cons.mp hsA with he | h'
        · exact absurd he.symm hx
        · exact h'
      have hlt := ih hsA'
      cases hq : (decide (x ∉ s :: v)) with
      | true =>
        have hp : (decide (x ∉ v)) = true := by
          simp only [decide_eq_true_eq] at hq ⊢
          exact fun hxv => hq (List.mem_cons_of_mem _ hxv)
        rw [if_pos rfl, hp, if_pos rfl]
        simp only [List.length_cons]
        omega
      | false =>
        rw [if_neg Bool.false_ne_true]
        cases hp : (decide (x ∉ v)) with
        | true =>
          rw [if_pos rfl]
          simp only [List.length_cons]
          omega
        | false =>
          rw [if_neg Bool.false_ne_true]
          exact hlt

lemma dfs_fuel_eq (g : List (String × List String)) :
    ∀ (n : Nat) (s : String) (v : List String) (f : Nat),
      ((g.map Prod.fst).filter (fun k => decide (k ∉ v))).length ≤ n → n < f →
      dfsLongestPath f s g v = dfsLongestPath (n + 1) s g v := by
  intro n
  induction n with
  | zero =>
    intro s v f hle hf
    cases f with
    | zero => omega
    | succ f' =>
      simp only [dfsLongestPath]
      by_cases hsv : s ∈ v
      · simp [hsv]
      · simp only [if_neg hsv]
        by_cases hge : (graphGet g s).isEmpty
        · simp [hge]
        · exfalso
          have hkey := graphGet_nonempty_mem_keys g s hge
          have : s ∈ (g.map Prod.fst).filter (fun k => decide (k ∉ v)) :=
            List.mem_filter.mpr ⟨hkey, by simpa using hsv⟩
          have := List.length_pos.mpr (List.ne_nil_of_mem this)
          omega
  | succ n' ih =>
    intro s v f hle hf
    cases f with
    | zero => omega
    | succ f' =>
      simp only [dfsLongestPath]
      by_cases hsv : s ∈ v
      · simp [hsv]
      · simp only [if_neg hsv]
        by_cases hge : (graphGet g s).isEmpty
        · simp [hge]
        · simp only [if_neg hge]
          apply List.foldl_ext
          intro acc nb _
          have hkey := graphGet_nonempty_mem_keys g s hge
          have hdec := filter_notMem_cons_lt (g.map Prod.fst) s v hkey hsv
          have hm : ((g.map Prod.fst).filter (fun k => decide (k ∉ s :: v))).length ≤ n' := by
            omega
          rw [ih nb (s :: v) f' hm (by omega)]
          simp only [dfsLongestPath]

/-- C3: `analyze` terminates on every finite input, cycles included.  The
DFS tracks the nodes on the current path, so its recursion depth is
bounded by the number of unvisited graph keys: any fuel above that bound
produces the same result as the canonical bound (`analyze` calls the DFS
with fuel `graph size + 1`, which is exactly this bound for the empty
visited set); in particular the analysis of the spec's two-node cycle
completes. -/
theorem c3_dfs_terminates :
    (∀ (g : List (String × List String)) (s : String) (v : List String) (f : Nat),
      ((g.map Prod.fst).filter (fun k => decide (k ∉ v))).length < f →
      dfsLongestPath f s g v =
        dfsLongestPath (((g.map Prod.fst).filter (fun k => decide (k ∉ v))).length + 1) s g v) ∧
    analysisIsError (analyze [⟨"A", pct 50, pct 10⟩, ⟨"B", pct 50, pct 10⟩]
      [("A", "B"), ("B", "A")]) = false :=
  ⟨fun g s v f hf => dfs_fuel_eq g _ s v f le_rfl hf, by decide⟩

/-- C3 witness: fuel insensitivity at the two-node cycle. -/
theorem c3_witness :
    dfsLongestPath 5 "A" [("A", ["B"]), ("B", ["A"])] [] =
      dfsLongestPath ((([("A", ["B"]), ("B", ["A"])].map Prod.fst).filter
        (fun k => decide (k ∉ ([] : List String)))).length + 1) "A"
        [("A", ["B"]), ("B", ["A"])] [] :=
  c3_dfs_terminates.1 [("A", ["B"]), ("B", ["A"])] "A" [] 5 (by decide)

/-! ### Claim C9: determinism -/

/-- C9: `score_component` and `analyze` are deterministic: two runs on
equal inputs give equal outputs, including the order of every output
list.  The embedding is a pure function of its arguments; the only
internally used structure whose enumeration order Python leaves
unspecified — the `set(deps)` of the vulnerability pass — is read only
when it has exactly one element, so it cannot introduce run-to-run
variation. -/
theorem c9_deterministic :
    (∀ (n₁ n₂ : String) (c₁ c₂ : Context), n₁ = n₂ → c₁ = c₂ →
      scoreComponent n₁ c₁ = scoreComponent n₂ c₂) ∧
    (∀ (comps₁ comps₂ : List Component) (deps₁ deps₂ : List (String × String)),
      comps₁ = comps₂ → deps₁ = deps₂ → analyze comps₁ deps₁ = analyze comps₂ deps₂) := by
  constructor
  · intro n₁ n₂ c₁ c₂ hn hc
    rw [hn, hc]
  · intro a b c d hab hcd
    rw [hab, hcd]

/-- C9 witness: two identical runs at concrete inputs. -/
theorem c9_witness :
    scoreComponent "PostgreSQL" [] = scoreComponent "PostgreSQL" [] ∧
    analyze [⟨"A", pct 50, pct 10⟩] [] = analyze [⟨"A", pct 50, pct 10⟩] [] :=
  ⟨c9_deterministic.1 "PostgreSQL" "PostgreSQL" [] [] rfl rfl,
   c9_deterministic.2 [⟨"A", pct 50, pct 10⟩] [⟨"A", pct 50, pct 10⟩] [] [] rfl rfl⟩

/-! ### Claim C10: analyze does not mutate its arguments -/

lemma dfsSt_visited (f : Nat) (s : String) (g : List (String × List String))
    (v : List String) : (dfsLongestPathSt f s g v).2 = v := by
  cases f with
  | zero => rfl
  | succ f' =>
    simp only [dfsLongestPathSt]
    split_ifs <;> rfl

lemma dfsSt_result (f : Nat) :
    ∀ (s : String) (g : List (String × List String)) (v : List String),
      (dfsLongestPathSt f s g v).1 = dfsLongestPath f s g v := by
  induction f with
  | zero => intro s g v; rfl
  | succ f' ih =>
    intro s g v
    simp only [dfsLongestPathSt, dfsLongestPath]
    split_ifs with h1 h2
    · rfl
    · rfl
    · have aux : ∀ (nbrs : List String) (acc : List String),
          (nbrs.foldl (fun (st : List String × List String) neighbor =>
            ((fun r => (if st.1.length < r.1.length + 1 then s :: r.1 else st.1, r.2))
              (dfsLongestPathSt f' neighbor g st.2)))
            (acc, s :: v)) =
          (nbrs.foldl (fun longest neighbor =>
            if longest.length < (dfsLongestPath f' neighbor g (s :: v)).length + 1
            then s :: dfsLongestPath f' neighbor g (s :: v) else longest) acc, s :: v) := by
        intro nbrs
        induction nbrs with
        | nil => intro acc; rfl
        | cons nb rest ihn =>
          intro acc
          rw [List.foldl_cons, List.foldl_cons]
          have hstep : ((fun r => (if acc.length < r.1.length + 1 then s :: r.1 else acc, r.2))
              ((dfsLongestPathSt f' nb g (acc, s :: v).2))) =
              (if acc.length < (dfsLongestPath f' nb g (s :: v)).length + 1
               then s :: dfsLongestPath f' nb g (s :: v) else acc, s :: v) := by
            have hv := dfsSt_visited f' nb g (s :: v)
            have hr := ih nb g (s :: v)
            cases hd : dfsLongestPathSt f' nb g (s :: v) with
            | mk p w =>
              rw [hd] at hv hr
              simp only at hv hr
              simp [hv, hr]
          rw [hstep]
          exact ihn _
      rw [show ((graphGet g s).foldl (fun (st : List String × List String) neighbor =>
            ((fun r => (if st.1.length < r.1.length + 1 then s :: r.1 else st.1, r.2))
              (dfsLongestPathSt f' neighbor g st.2)))
            (([s] : List String), s :: v)).1 =
          (graphGet g s).foldl (fun longest neighbor =>
            if longest.length < (dfsLongestPath f' neighbor g (s :: v)).length + 1
            then s :: dfsLongestPath f' neighbor g (s :: v) else longest) ([s] : List String)
        from by rw [aux (graphGet g s) [s]]]

/-- C10: `analyze` never mutates its arguments.  The first conjunct shows
the DFS returns the caller's visited set unchanged (the source copies the
set per branch instead of mutating the shared one) alongside the same
path as the plain function; the second shows the state-threaded analysis,
in which the argument lists are passed through every pass that observes
them, hands back `components` and `dependencies` exactly as received
(each pass only folds over them; the adjacency dictionaries are built as
fresh structures from the edge list). -/
theorem c10_analyze_no_mutation :
    (∀ (f : Nat) (s : String) (g : List (String × List String)) (v : List String),
      dfsLongestPathSt f s g v = (dfsLongestPath f s g v, v)) ∧
    (∀ (comps : List Component) (deps : List (String × String)),
      analyzeSt comps deps = (analyze comps deps, comps, deps)) := by
  have hpair : ∀ (f : Nat) (s : String) (g : List (String × List String)) (v : List String),
      dfsLongestPathSt f s g v = (dfsLongestPath f s g v, v) := by
    intro f s g v
    have h1 := dfsSt_result f s g v
    have h2 := dfsSt_visited f s g v
    cases hd : dfsLongestPathSt f s g v with
    | mk p w =>
      rw [hd] at h1 h2
      simp only at h1 h2
      rw [h1, h2]
  refine ⟨hpair, ?_⟩
  intro comps deps
  have hcp : ∀ X, identifyCriticalPathSt comps deps X =
      (identifyCriticalPath comps deps X, comps, deps) := by
    intro X
    unfold identifyCriticalPathSt identifyCriticalPath
    simp only [hpair]
  unfold analyzeSt analyze
  cases hv : identifyVulnerabilities comps deps
      (identifyStrengths comps
        { total_components := comps.length, total_dependencies := deps.length }) with
  | error e => rfl
  | ok a2 =>
    simp only [hcp]

/-- C10 witness: the frame property at a concrete input. -/
theorem c10_witness :
    analyzeSt [⟨"A", pct 50, pct 10⟩] [("A", "B")] =
      (analyze [⟨"A", pct 50, pct 10⟩] [("A", "B")], [⟨"A", pct 50, pct 10⟩], [("A", "B")]) :=
  c10_analyze_no_mutation.2 [⟨"A", pct 50, pct 10⟩] [("A", "B")]

end Sindri
